import Mathlib

/-!
Verification development for the PySAR incremental container loader
(`pysar/load_data.py`) and the reference-point resolver / re-referencing
transform (`pysar/seed_data.py`).

Rasters are modelled as lists of rows of pixels; a pixel is `Option ℚ`,
with `none` standing for NaN (a missing value).  Attribute dictionaries
are association lists of strings.  Fallible code paths return `Except`;
the rejection-sampling loops of the random selection strategies take the
stream of random draws as an explicit list argument, with `none` as the
result when the stream is exhausted (the Python loop would keep drawing).
External collaborators that are not part of the two source files
(`pysar._pysar_utilities`, `pysar._readfile`, `pysar.subset`, the
interactive matplotlib picker) are modelled from the specification; each
such definition carries a doc comment saying so.
-/

namespace PySAR

/-- Pixel value of a raster; `none` models NaN (a missing value). -/
abbrev Pixel := Option ℚ

/-- Raster: a 2-D grid as a list of rows. -/
abbrev Raster := List (List Pixel)

/-- Attribute dictionary: string-keyed, string-valued, in insertion order. -/
abbrev Attrs := List (String × String)

/-- Boolean grid (the ValidityMask and other masks). -/
abbrev BMask := List (List Bool)

/-- Read a pixel; out-of-range reads default to `none` (used only where the
source code is known to stay in range, or where NaN-like behaviour is wanted). -/
def getPix (d : Raster) (y x : Nat) : Pixel := (d.getD y []).getD x none

/-- Read a mask cell; out-of-range reads default to `false`. -/
def maskAt (m : BMask) (y x : Nat) : Bool := (m.getD y []).getD x false

/-- Number of `true` cells of a mask (`np.nansum(mask)` on a boolean grid). -/
def countTrue (m : BMask) : Nat := (m.map fun row => (row.filter id).length).sum

/-- Python dict assignment `atr[key] = value`: update in place or append. -/
def setA : Attrs → String → String → Attrs
  | [], k, v => [(k, v)]
  | (k0, v0) :: rest, k, v =>
    if k0 = k then (k0, v) :: rest else (k0, v0) :: setA rest k v

/-- Python dict lookup `atr.get(key)`. -/
def lookupA (atr : Attrs) (k : String) : Option String :=
  (atr.find? fun p => p.1 = k).map (·.2)

/-- Python `atr.update(other)`: assign every pair of `other` in order. -/
def updateAll (atr other : Attrs) : Attrs :=
  other.foldl (fun a p => setA a p.1 p.2) atr

/-- Lexicographic comparison of character lists by code point. -/
def listLe : List Char → List Char → Bool
  | [], _ => true
  | _ :: _, [] => false
  | a :: as, b :: bs =>
    if a.toNat < b.toNat then true
    else if b.toNat < a.toNat then false
    else listLe as bs

/-- String order used by `sorted(...)` on the epoch keys. -/
def strLe (a b : String) : Bool := listLe a.toList b.toList

/-- Bool test that `n` is a prefix of `h` (character lists). -/
def listPre : List Char → List Char → Bool
  | [], _ => true
  | _ :: _, [] => false
  | a :: as, b :: bs => (a == b) && listPre as bs

/-- Bool test that `n` occurs as a contiguous substring of `h` (character
lists); the Python operator `epoch in file` on strings. -/
def listSub : List Char → List Char → Bool
  | n, [] => n.isEmpty
  | n, c :: t => listPre n (c :: t) || listSub n t

/-- Python `needle in hay` for strings. -/
def substr (needle hay : String) : Bool := listSub needle.toList hay.toList

/-- POSIX `os.path.basename`: the suffix after the last slash. -/
def basename (p : String) : String :=
  String.mk (p.toList.foldl (fun acc c => if c == '/' then [] else acc ++ [c]) [])

/-- `sorted(...)` on a list of strings. -/
def sortStrings (l : List String) : List String :=
  List.insertionSort (fun a b => strLe a b) l

/-! ## load_data.py -/

/-- One step of the Python counting loop
`counts[item] = counts.get(item, 0) + 1`, on an association list kept in
first-occurrence order (a deterministic stand-in for the Python dict, whose
iteration order is arbitrary; every output of `mode` below is independent of
that order). -/
def updateCount : List (Nat × Nat) → Nat → List (Nat × Nat)
  | [], item => [(item, 1)]
  | (k, v) :: rest, item =>
    if k = item then (k, v + 1) :: rest else (k, v) :: updateCount rest item

/-- Occurrence counts of the list items, in first-occurrence order. -/
def countsOf (l : List Nat) : List (Nat × Nat) := l.foldl updateCount []

/-- `load_data.mode`: most common item of the list; `none` for an empty list,
the sole element for a singleton list, `none` when every value appears once or
when several values tie for most frequent, otherwise the unique most frequent
value.  The Python loop tracks `maxitem`/`maxcount` over the dict items; in the
sole branch that returns `maxitem` the maximiser is unique, so taking the first
counted entry achieving `maxcount` reproduces it regardless of dict order. -/
def mode (thelist : List Nat) : Option Nat :=
  match thelist with
  | [] => none
  | [x] => some x
  | _ =>
    let counts := countsOf thelist
    let maxcount := counts.foldl (fun m p => max m p.2) 0
    if maxcount = 1 then none
    else if 1 < (counts.filter fun p => p.2 == maxcount).length then none
    else (counts.find? fun p => p.2 == maxcount).map (·.1)

/-- Candidate source raster file: its path and, as read by
`readfile.read_attribute` / `readfile.read` (external readers), its declared
WIDTH / FILE_LENGTH, raster data and attribute dictionary.  The attributes of
a path are always read the same way, so they travel with the path here. -/
structure SrcFile where
  path : String
  width : Nat
  length : Nat
  data : Raster
  attrs : Attrs
deriving DecidableEq

/-- Default placeholder file (used only for `headD`, never reachable on the
paths the theorems take). -/
def dSrc : SrcFile := ⟨"", 0, 0, [], []⟩

/-- `load_data.check_file_size`: drop candidates whose declared size differs
from the majority (mode) size.  The two optional arguments mirror the Python
keyword arguments `mode_width` / `mode_length` (recomputed when `None`).
`fileListOut.remove(fileList[i])` removes the first occurrence, modelled by
`List.erase`. -/
def check_file_size (fileList : List SrcFile) (mode_width0 mode_length0 : Option Nat) :
    List SrcFile × Option Nat × Option Nat :=
  if fileList.isEmpty then (fileList, none, none)
  else
    let widthList := fileList.map (·.width)
    let lengthList := fileList.map (·.length)
    let mode_width := if mode_width0.isNone then mode widthList else mode_width0
    let mode_length := if mode_length0.isNone then mode lengthList else mode_length0
    let fileListOut :=
      if (widthList.filter fun w => some w == mode_width).length ≠ widthList.length
         ∨ (lengthList.filter fun h => some h == mode_length).length ≠ lengthList.length then
        fileList.foldl
          (fun acc f =>
            if some f.width ≠ mode_width ∨ some f.length ≠ mode_length then acc.erase f
            else acc)
          fileList
      else fileList
    (fileListOut, mode_width, mode_length)

/-- Epoch subgroup of the multi-group HDF5 container: group name (the source
file basename), the raster dataset and the attributes attached to the group. -/
structure H5Group where
  name : String
  data : Raster
  attrs : Attrs
deriving DecidableEq

/-- Multi-group HDF5 container: one file-type top group holding the epoch
subgroups (PySAR multi-group files carry exactly one top-level group). -/
structure H5File where
  fileType : String
  groups : List H5Group
deriving DecidableEq

/-- State of the output path on disk: no file, an unreadable file
(`readfile.read_attribute` raises), or a readable container together with the
nominal WIDTH / FILE_LENGTH from its attributes. -/
inductive H5State where
  | absent : H5State
  | corrupt : H5State
  | present : H5File → Nat → Nat → H5State
deriving DecidableEq

/-- Inner loop of the duplicate-epoch removal in `check_existed_hdf5_file`:
`for file in roipacFileList: if epoch in file: outFileList.remove(file)`.
Iterates over the original candidate list; `list.remove` raises `ValueError`
when the element is no longer present (a candidate whose path contains two
stored epoch ids reaches that error). -/
def removeEpochMatches (orig : List SrcFile) (epoch : String) (cur : List SrcFile) :
    Except String (List SrcFile) :=
  orig.foldl
    (fun acc file =>
      match acc with
      | .error e => .error e
      | .ok cur2 =>
        if substr epoch file.path then
          if file ∈ cur2 then .ok (cur2.erase file)
          else .error "ValueError: list.remove(x): x not in list"
        else .ok cur2)
    (.ok cur)

/-- Outer loop of the duplicate-epoch removal: `for epoch in epochList: ...`. -/
def removeExisted (epochList : List String) (orig : List SrcFile) :
    Except String (List SrcFile) :=
  epochList.foldl
    (fun acc epoch =>
      match acc with
      | .error e => .error e
      | .ok cur => removeEpochMatches orig epoch cur)
    (.ok orig)

/-- `load_data.check_existed_hdf5_file`: with no file on disk the candidate
list passes through; an unreadable file is deleted (`rm`, destructive
recovery) and the list passes through; against a readable container the
already-stored epochs are removed from the list (substring match against the
sorted epoch keys) and, when candidates survive, their mode size must equal
the container size, else `None` is returned (nothing will be loaded). -/
def check_existed_hdf5_file (roipacFileList : List SrcFile) (st : H5State) :
    Except String (Option (List SrcFile) × H5State) :=
  if roipacFileList.isEmpty then .ok (some roipacFileList, st)
  else
    match st with
    | .absent => .ok (some roipacFileList, st)
    | .corrupt => .ok (some roipacFileList, .absent)
    | .present f cw cl =>
      let epochList := sortStrings (f.groups.map (·.name))
      match removeExisted epochList roipacFileList with
      | .error e => .error e
      | .ok outFileList =>
        if !outFileList.isEmpty then
          let res := check_file_size outFileList none none
          if res.2.1 ≠ some cw ∨ res.2.2 ≠ some cl then .ok (none, st)
          else .ok (some res.1, st)
        else .ok (some outFileList, st)

/-- Result of `roipac2multi_group_hdf5`: the returned pair (output path or
`None`, list of newly added files or `None`) plus the on-disk state after the
call. -/
structure MergeResult where
  retFile : Option String
  added : Option (List SrcFile)
  state : H5State
deriving DecidableEq

/-- Writing one candidate into the container (`load_data.py` lines 244-269):
read data and attributes, best-effort merge of the companion
`*_baseline.rsc` metadata (external `readfile.read_roipac_rsc`; the `baseline`
argument models that lookup, `none` covering both a missing companion file and
a missing/odd `DATE12`, which the source catches and skips), stamp
`drop_ifgram` and `PROJECT_NAME`, and attach everything under a subgroup named
by the file basename. -/
def mkEpochGroup (projectName : Option String) (baseline : SrcFile → Option Attrs)
    (f : SrcFile) : H5Group :=
  let atr := f.attrs
  let atr :=
    if lookupA atr "PROCESSOR" = some "roipac" then
      match baseline f with
      | some rsc => updateAll atr rsc
      | none => atr
    else atr
  let atr := setA atr "drop_ifgram" "no"
  let atr := setA atr "PROJECT_NAME" (projectName.getD "PYSAR")
  ⟨basename f.path, f.data, atr⟩

/-- `load_data.roipac2multi_group_hdf5`: size-gate the candidates, compare
with the existing container, then either create the container in truncating
`w` mode (when `fileList2 == fileList`, i.e. no candidate was already
present), append in `r+` mode (when a proper non-empty subset is new), or do
nothing (everything already present, or size conflict).  Returns the output
path together with the list actually written (`None` when nothing was). -/
def roipac2multi_group_hdf5 (fileType : String) (fileList0 : List SrcFile)
    (hdf5File : String) (st : H5State) (projectName : Option String)
    (baseline : SrcFile → Option Attrs) : Except String MergeResult :=
  let res := check_file_size fileList0 none none
  let fileList := res.1
  if fileList.isEmpty then .ok ⟨none, none, st⟩
  else
    match check_existed_hdf5_file fileList st with
    | .error e => .error e
    | .ok (fileList2, st1) =>
      if fileList2 = some fileList then
        let groups := fileList.foldl (fun gs f => gs ++ [mkEpochGroup projectName baseline f]) []
        let w := (fileList.headD dSrc).width
        let l := (fileList.headD dSrc).length
        .ok ⟨some hdf5File, some fileList, .present ⟨fileType, groups⟩ w l⟩
      else
        match fileList2 with
        | some l2 =>
          if !l2.isEmpty then
            match st1 with
            | .present f cw cl =>
              let base := if f.fileType = fileType then f.groups else []
              let groups := l2.foldl (fun gs g => gs ++ [mkEpochGroup projectName baseline g]) base
              .ok ⟨some hdf5File, some l2, .present ⟨fileType, groups⟩ cw cl⟩
            | _ => .error "IOError: r+ open on a missing file"
          else .ok ⟨some hdf5File, none, st1⟩
        | none => .ok ⟨some hdf5File, none, st1⟩

/-! ## seed_data.py -/

/-- One epoch of a multi-epoch container: HDF5 key, raster dataset and the
attributes attached at the epoch level. -/
structure Epoch where
  id : String
  data : Raster
  attrs : Attrs
deriving DecidableEq

/-- Multi-epoch container to be seeded: FILE_TYPE, parsed WIDTH and
FILE_LENGTH attributes, the epoch groups and the file-level attributes. -/
structure MultiFile where
  fileType : String
  width : Nat
  length : Nat
  epochs : List Epoch
  attrs : Attrs
deriving DecidableEq

/-- Default epoch (only a `getD` default in statements; out of range). -/
def dEp : Epoch := ⟨"", [], []⟩

/-- `sorted(h5file[k].keys())` over the epoch groups. -/
def sortEpochs (l : List Epoch) : List Epoch :=
  List.insertionSort (fun a b => strLe a.id b.id) l

/-- File types treated as multi-dataset files by `seed_file_reference_value`. -/
def multiEpochTypes : List String := ["timeseries", "interferograms", "wrapped", "coherence"]

/-- `data -= ref` on a raster: elementwise subtraction; NaN stays NaN. -/
def subRaster (d : Raster) (r : ℚ) : Raster :=
  d.map fun row => row.map fun p => p.map (· - r)

/-- `seed_data.seed_attributes`: copy the attributes (already strings here)
and set `ref_y` / `ref_x`.  When the file is geocoded (`X_FIRST` present) the
source additionally derives `ref_lat` / `ref_lon` through
`subset.coord_radar2geo`, an external collaborator outside the two source
files; the model covers radar-coordinate containers, for which that branch is
not taken, and no claim below inspects `ref_lat` / `ref_lon`. -/
def seed_attributes (atr_in : Attrs) (x y : String) : Attrs :=
  setA (setA atr_in "ref_y" y) "ref_x" x

/-- Abort causes of the seeding tool, all ending the process with a non-zero
status: an explicit `sys.exit(1)`, an uncaught `ValueError`, or an uncaught
numpy `IndexError`. -/
inductive SeedErr where
  | exitCode (msg : String)
  | valueError (msg : String)
  | indexError
deriving DecidableEq

/-- Message of the epoch-count check of `seed_file_reference_value`. -/
def epochMismatchMsg : String :=
  "ERROR: Reference value has different epoch number from input file."

/-- Per-epoch body of the seeding loops: pair the sorted epochs with the
reference values by position, subtract, and (for the multi-group layout,
where attributes live on each epoch subgroup) seed the per-epoch attributes. -/
def seedEpochs (sorted : List Epoch) (refList : List ℚ) (seedEach : Bool)
    (ref_x ref_y : String) : List Epoch :=
  (sorted.zip refList).map fun er =>
    ⟨er.1.id, subRaster er.1.data er.2,
     if seedEach then seed_attributes er.1.attrs ref_x ref_y else er.1.attrs⟩

/-- `seed_data.seed_file_reference_value` on multi-epoch file types: check
that the reference list length equals the epoch count (`sys.exit(1)` on
mismatch, before the output file is created), then write a new container
whose epochs are the input epochs with `data -= refList[i]`; the `timeseries`
layout seeds the file-level attributes, the interferogram-like layouts seed
each epoch group.  The single-dataset branch of the source (lines 108-114)
goes through the external `readfile.read` / `writefile.write` and is outside
this model and the claims; it is mapped to an error marker here. -/
def seed_file_reference_value (file : MultiFile) (refList : List ℚ)
    (ref_y ref_x : String) : Except SeedErr MultiFile :=
  if file.fileType ∈ multiEpochTypes then
    let epochList := sortEpochs file.epochs
    let epochNum := epochList.length
    if epochNum ≠ refList.length then .error (.exitCode epochMismatchMsg)
    else if file.fileType = "timeseries" then
      .ok ⟨file.fileType, file.width, file.length,
           seedEpochs epochList refList false ref_x ref_y,
           seed_attributes file.attrs ref_x ref_y⟩
    else
      .ok ⟨file.fileType, file.width, file.length,
           seedEpochs epochList refList true ref_x ref_y,
           file.attrs⟩
  else .error (.valueError "single-dataset seeding is outside this model")

/-- Helper building a boolean grid of `rows` rows, row `y` having `cols y`
cells, cell `(y, x)` holding `f y x`. -/
def mkGrid (rows : Nat) (cols : Nat → Nat) (f : Nat → Nat → Bool) : BMask :=
  (List.range rows).map fun y => (List.range (cols y)).map fun x => f y x

/-- Modelled from the spec: the ValidityMask computed by
`~np.isnan(ut.get_file_stack(File, mask_file))`, where `ut.get_file_stack`
is an external collaborator (`pysar._pysar_utilities`, not under src).  Per
the spec it is the boolean grid that is "true where every epoch has a defined
(non-missing) value, optionally intersected with an externally supplied mask
raster" (mask pixels equal to 0 mask out; NaN mask pixels do not). -/
def validity_mask (file : MultiFile) (maskFile : Option Raster) : BMask :=
  mkGrid file.length (fun _ => file.width) fun y x =>
    (file.epochs.all fun e => (getPix e.data y x).isSome) &&
    (match maskFile with
     | none => true
     | some m => !(getPix m y x == some 0))

/-- Pixel coordinates of a mask, row major. -/
def pixList (m : BMask) : List (Nat × Nat) :=
  ((List.range m.length).map fun y =>
      (List.range (m.getD y []).length).map fun x => (y, x)).flatten

/-- Membership of a pixel in a rectangular box `(x0, y0, x1, y1)` (the source
passes boxes as x-first tuples; ends exclusive). -/
def inBox (b : Int × Int × Int × Int) (p : Nat × Nat) : Bool :=
  decide (b.2.1 ≤ (p.1 : Int)) && decide ((p.1 : Int) < b.2.2.2) &&
  decide (b.1 ≤ (p.2 : Int)) && decide ((p.2 : Int) < b.2.2.1)

/-- Raster values over the mask-true pixels of a box (defined values only;
on the paths used below the mask is true only at defined pixels). -/
def boxVals (data : Raster) (m : BMask) (b : Int × Int × Int × Int) : List ℚ :=
  ((pixList m).filter fun p => inBox b p && maskAt m p.1 p.2).filterMap
    fun p => getPix data p.1 p.2

/-- Mean of the box values (0 when the qualifying set is empty; the claims
below only use it on non-empty qualifying sets). -/
def meanOver (data : Raster) (m : BMask) (b : Int × Int × Int × Int) : ℚ :=
  (boxVals data m b).sum / ((boxVals data m b).length : ℚ)

/-- Modelled from the spec: `ut.spatial_average(File, mask, box)` (external
`pysar._pysar_utilities`, not under src); section 4.3 `windowedMaskedMean`:
"for a rectangular pixel box and a boolean validity mask, compute for each
epoch the mean of the raster values over pixels inside the box where the mask
is true", one value per epoch in sorted epoch order. -/
def spatial_average (file : MultiFile) (m : BMask) (b : Int × Int × Int × Int) : List ℚ :=
  (sortEpochs file.epochs).map fun e => meanOver e.data m b

/-- Input namespace of the seeding tool (the `inps` argparse object):
`ref_y` / `ref_x` are `None` or ints; `mask_file` and `coherence_file` stand
for the already-read rasters of the respective paths (`None` covers both an
absent flag and, after line 506 of the source, a path that is not a file). -/
structure SeedInps where
  ref_y : Option Int
  ref_x : Option Int
  mask_file : Option Raster
  coherence_file : Option Raster
  min_coherence : ℚ
  method : String
  mark_attribute : Bool
deriving DecidableEq

/-- Python truthiness of an optional int: `None` and `0` are falsy. -/
def truthyI : Option Int → Bool
  | none => false
  | some v => !(v == 0)

/-- Unwrap an optional int (evaluated only under `truthyI` guards). -/
def getI (o : Option Int) : Int := o.getD 0

/-- Numpy integer indexing into an axis of size `n`: in-range indices and
negative wraparound succeed, anything else raises `IndexError` (`none`). -/
def npIdx (n : Nat) (i : Int) : Option Nat :=
  if 0 ≤ i ∧ i < (n : Int) then some i.toNat
  else if -(n : Int) ≤ i ∧ i < 0 then some (i + n).toNat
  else none

/-- Numpy read `r[y, x]` on a raster; `none` is `IndexError`. -/
def npGetQ (r : Raster) (y x : Int) : Option Pixel :=
  match npIdx r.length y with
  | none => none
  | some yy =>
    match npIdx (r.getD yy []).length x with
    | none => none
    | some xx => some ((r.getD yy []).getD xx none)

/-- Numpy read `m[y, x]` on a boolean grid; `none` is `IndexError`. -/
def npGetB (m : BMask) (y x : Int) : Option Bool :=
  match npIdx m.length y with
  | none => none
  | some yy =>
    match npIdx (m.getD yy []).length x with
    | none => none
    | some xx => some ((m.getD yy []).getD xx false)

/-- `seed_data.random_select_reference_yx`: draw uniform `(y, x)` pairs until
the mask is non-zero there.  The draws of the process-wide random source are
passed explicitly (each assumed produced by `random.choice(range(nrow))` and
`random.choice(range(ncol))`); the first mask-true draw is returned, and
`none` models the loop never terminating on the given stream. -/
def random_select_reference_yx (data_mat : BMask) (draws : List (Nat × Nat)) :
    Option (Nat × Nat) :=
  draws.find? fun p => maskAt data_mat p.1 p.2

/-- Coherence qualification mask of `select_max_coherence_yx`:
`coh[mask==0] = 0.0` followed by `coh_mask = coh >= min_coh` (a NaN coherence
compares false).  The grid shares the dimensions of the validity mask, with
which the source arrays must agree elementwise. -/
def coherence_mask (coh : Raster) (m : BMask) (min_coh : ℚ) : BMask :=
  mkGrid m.length (fun y => (m.getD y []).length) fun y x =>
    match (if maskAt m y x then getPix coh y x else some 0) with
    | some v => decide (min_coh ≤ v)
    | none => false

/-- `seed_data.select_max_coherence_yx`: read the coherence raster, zero the
masked-out pixels, threshold at `min_coh` and randomly select a qualifying
pixel. -/
def select_max_coherence_yx (cohFile : Raster) (m : BMask) (min_coh : ℚ)
    (draws : List (Nat × Nat)) : Option (Nat × Nat) :=
  random_select_reference_yx (coherence_mask cohFile m min_coh) draws

/-- `seed_data.manual_select_reference_yx`: the interactive matplotlib picker
(out of core scope per the spec) delivers click events; a click on a non-NaN
stack pixel stores its coordinates in `inps`, a click on a NaN pixel only
warns.  The non-NaN pattern of the displayed stack is the ValidityMask, and
the clicks are passed explicitly. -/
def manual_select_reference_yx (stackMask : BMask) (inps : SeedInps)
    (clicks : List (Nat × Nat)) : SeedInps :=
  clicks.foldl
    (fun ip c =>
      if maskAt stackMask c.1 c.2 then
        { ip with ref_y := some (c.1 : Int), ref_x := some (c.2 : Int) }
      else ip)
    inps

/-- Outcome of seeding one file: a freshly written corrected container
(value mode) or the input container with reference attributes added
(mark mode). -/
inductive SeedOut where
  | newFile (f : MultiFile)
  | marked (f : MultiFile)
deriving DecidableEq

/-- Modelled from the spec: `ut.add_attribute(File, atr_ref)` (external
`pysar._pysar_utilities`, not under src); mark mode "writes ref_y/ref_x into
the containers attributes; raster values are left untouched". -/
def add_attribute (file : MultiFile) (atr : Attrs) : MultiFile :=
  { file with attrs := updateAll file.attrs atr }

/-- Message of the `sys.exit(1)` taken when the ValidityMask is empty. -/
def noValidPixelMsg : String :=
  "ERROR: There is no pixel that has valid phase value in all datasets."

/-- Message of the `ValueError` raised at the end of `seed_file_inps`. -/
def noRefMsg : String := "Can not find reference y/x or Nan value."

/-- Step 2.1 of `seed_file_inps` (lines 166-174): when `ref_y` or `ref_x` is
falsy, pick them by the first applicable strategy: coherence threshold if a
coherence raster is supplied, else uniform random for the `random` method,
else the interactive picker for the `manual` method; otherwise leave `inps`
unchanged.  `none` propagates a non-terminating random loop. -/
def step21 (mask : BMask) (inps : SeedInps) (draws : List (Nat × Nat))
    (clicks : List (Nat × Nat)) : Option SeedInps :=
  if !(truthyI inps.ref_y) || !(truthyI inps.ref_x) then
    match inps.coherence_file with
    | some coh =>
      match select_max_coherence_yx coh mask inps.min_coherence draws with
      | some yx =>
        some { inps with method := "max-coherence",
                         ref_y := some (yx.1 : Int), ref_x := some (yx.2 : Int) }
      | none => none
    | none =>
      if inps.method = "random" then
        match random_select_reference_yx mask draws with
        | some yx => some { inps with ref_y := some (yx.1 : Int), ref_x := some (yx.2 : Int) }
        | none => none
      else if inps.method = "manual" then
        some (manual_select_reference_yx mask inps clicks)
      else some inps
  else some inps

/-- Step 2.2 of `seed_file_inps` (lines 176-191): commit when `ref_y` and
`ref_x` are truthy and the ValidityMask is true there (mark mode adds the
attributes, value mode extracts the single-pixel reference values and writes
the corrected container); the mask read can raise `IndexError`; every other
case raises `ValueError`. -/
def step22 (file : MultiFile) (mask : BMask) (inps : SeedInps) : Except SeedErr SeedOut :=
  if truthyI inps.ref_y && truthyI inps.ref_x then
    match npGetB mask (getI inps.ref_y) (getI inps.ref_x) with
    | none => .error .indexError
    | some b =>
      if b then
        if inps.mark_attribute then
          .ok (.marked (add_attribute file
            [("ref_x", toString (getI inps.ref_x)), ("ref_y", toString (getI inps.ref_y))]))
        else
          let y := getI inps.ref_y
          let x := getI inps.ref_x
          let refList := spatial_average file mask (x, y, x + 1, y + 1)
          (seed_file_reference_value file refList (toString y) (toString x)).map .newFile
      else .error (.valueError noRefMsg)
  else .error (.valueError noRefMsg)

/-- `seed_data.seed_file_inps`: build the ValidityMask and `sys.exit(1)` when
it has no true pixel; the `global-average` method seeds with the full-extent
spatial averages; otherwise resolve `ref_y` / `ref_x` (step 2.1) and seed at
that pixel (step 2.2).  The outer `Option` is `none` when a random-selection
loop never terminates on the supplied draw stream. -/
def seed_file_inps (file : MultiFile) (inps : SeedInps) (draws : List (Nat × Nat))
    (clicks : List (Nat × Nat)) : Option (Except SeedErr SeedOut) :=
  let mask := validity_mask file inps.mask_file
  if countTrue mask = 0 then some (.error (.exitCode noValidPixelMsg))
  else if inps.method = "global-average" then
    let box := ((0 : Int), (0 : Int), (file.width : Int), (file.length : Int))
    let meanList := spatial_average file mask box
    some ((seed_file_reference_value file meanList "" "").map .newFile)
  else
    match step21 mask inps draws clicks with
    | none => none
    | some inps2 => some (step22 file mask inps2)

/-- Method selection of `main` (lines 499-506): truthy coordinates force
`input-coord`; else a supplied (and existing) coherence file forces
`max-coherence`. -/
def set_method (inps : SeedInps) : SeedInps :=
  if truthyI inps.ref_y && truthyI inps.ref_x then { inps with method := "input-coord" }
  else if inps.coherence_file.isSome then { inps with method := "max-coherence" }
  else inps

/-- Coordinate vetting of `main` (lines 481-506): clear truthy coordinates
outside `0 <= y <= length and 0 <= x <= width` (note the inclusive upper
bounds of the source); clear truthy coordinates at a zero pixel of the mask
file (the read `mask[ref_y, ref_x]` can raise `IndexError`); then select the
method.  The upstream lat/lon conversion and the reference/template readers
(lines 456-478) go through external collaborators and are not modelled; the
model covers direct y/x input. -/
def main_resolve (length width : Int) (inps : SeedInps) : Except SeedErr SeedInps :=
  let inps1 :=
    if truthyI inps.ref_y && truthyI inps.ref_x &&
       !(decide (0 ≤ getI inps.ref_y) && decide (getI inps.ref_y ≤ length) &&
         decide (0 ≤ getI inps.ref_x) && decide (getI inps.ref_x ≤ width)) then
      { inps with ref_y := none, ref_x := none }
    else inps
  match inps1.mask_file with
  | none => .ok (set_method inps1)
  | some m =>
    if truthyI inps1.ref_y && truthyI inps1.ref_x then
      match npGetQ m (getI inps1.ref_y) (getI inps1.ref_x) with
      | none => .error .indexError
      | some px =>
        if px == some 0 then .ok (set_method { inps1 with ref_y := none, ref_x := none })
        else .ok (set_method inps1)
    else .ok (set_method inps1)

/-- Single-input-file pipeline of the seeding tool: the coordinate vetting
and method selection of `main` followed by `seed_file_inps`. -/
def mainSeed (file : MultiFile) (inps : SeedInps) (draws : List (Nat × Nat))
    (clicks : List (Nat × Nat)) : Option (Except SeedErr SeedOut) :=
  match main_resolve (file.length : Int) (file.width : Int) inps with
  | .error e => some (.error e)
  | .ok inps1 => seed_file_inps file inps1 draws clicks

/-! ## Concrete scenario data shared by witnesses and counterexamples -/

/-- Stored epoch group `A.unw` of the 1-by-1 demo container. -/
def grpA : H5Group := ⟨"A.unw", [[some 1]], []⟩

/-- Stored epoch group `B.unw` of the 1-by-1 demo container. -/
def grpB : H5Group := ⟨"B.unw", [[some 2]], []⟩

/-- Readable 1-by-1 container already holding epochs `A.unw` and `B.unw`. -/
def stateAB : H5State := .present ⟨"interferograms", [grpA, grpB]⟩ 1 1

/-- Candidate source whose epoch `A.unw` is already stored. -/
def srcA : SrcFile := ⟨"dir/A.unw", 1, 1, [[some 1]], []⟩

/-- Candidate source for the new epoch `B.unw` (fresh data). -/
def srcB : SrcFile := ⟨"dir/B.unw", 1, 1, [[some 9]], []⟩

/-- Candidate source for the new epoch `C.unw`. -/
def srcC : SrcFile := ⟨"dir/C.unw", 1, 1, [[some 3]], []⟩

/-- Baseline-companion lookup that always fails (no `*_baseline.rsc` files). -/
def noBaseline : SrcFile → Option Attrs := fun _ => none

/-- Demo 3-by-3 interferogram stack, all pixels valid except `(0, 2)` of
epoch `b`. -/
def demoFile : MultiFile :=
  ⟨"interferograms", 3, 3,
   [⟨"a", [[some 1, some 2, some 3], [some 3, some 4, some 5], [some 6, some 7, some 8]],
     [("k", "v")]⟩,
    ⟨"b", [[some 5, some 6, none], [some 7, some 8, some 9], [some 1, some 2, some 3]], []⟩],
   []⟩

/-- Demo 2-by-2 stack whose pixel `(1, 1)` is NaN in epoch `b` (so the only
in-bounds pixel with nonzero coordinates is invalid). -/
def demoFile2 : MultiFile :=
  ⟨"interferograms", 2, 2,
   [⟨"a", [[some 1, some 2], [some 3, some 4]], []⟩,
    ⟨"b", [[some 5, some 6], [some 7, none]], []⟩],
   []⟩

/-- Demo 3-by-3 stack whose pixel `(1, 1)` is NaN in epoch `b`, everything
else valid. -/
def demoFile3 : MultiFile :=
  ⟨"interferograms", 3, 3,
   [⟨"a", [[some 1, some 2, some 3], [some 3, some 4, some 5], [some 6, some 7, some 8]],
     []⟩,
    ⟨"b", [[some 5, some 6, some 4], [some 7, none, some 9], [some 1, some 2, some 3]], []⟩],
   []⟩

/-- Fully NaN 1-by-1 single-epoch stack (empty ValidityMask). -/
def nanFile : MultiFile := ⟨"interferograms", 1, 1, [⟨"a", [[none]], []⟩], []⟩

/-- Default seeding inputs: no coordinates, no mask, no coherence, default
method `random`, threshold 0.85, value mode. -/
def inpsDefault : SeedInps := ⟨none, none, none, none, 85 / 100, "random", false⟩

/-- Demo 3-by-3 coherence raster (integer values so that witnesses evaluate
inside the kernel; threshold 1 plays the role of 0.85). -/
def demoCoh : Raster :=
  [[some 2, some 0, some 3], [some 2, some 5, some 0], [some 0, some 3, some 2]]

/-- Single-epoch 2-by-2 container used by the C1 witness. -/
def wFile : MultiFile :=
  ⟨"interferograms", 2, 2, [⟨"a", [[some 1, some 2], [some 3, some 4]], []⟩], []⟩

/-- ValidityMask of `wFile` (no mask file). -/
def wMask : BMask := validity_mask wFile none

/-- Single-pixel reference list of `wFile` at pixel `(1, 1)`. -/
def wRef : List ℚ :=
  spatial_average wFile wMask
    (((1 : Nat) : Int), ((1 : Nat) : Int), ((1 : Nat) : Int) + 1, ((1 : Nat) : Int) + 1)

/-- Value-mode output of seeding `wFile` at pixel `(1, 1)`. -/
def wOut : MultiFile :=
  ⟨"interferograms", 2, 2, seedEpochs (sortEpochs wFile.epochs) wRef true "1" "1", []⟩

/-- Specification-side lookup in a counting association list (used only by
the lemmas relating `countsOf` to `List.count`). -/
def lookupC : List (Nat × Nat) → Nat → Nat
  | [], _ => 0
  | (k0, v) :: rest, k => if k0 = k then v else lookupC rest k

/-! ## General lemmas -/

theorem foldl_append_map {α β : Type} (mk : α → β) :
    ∀ (l : List α) (acc : List β),
      l.foldl (fun gs g => gs ++ [mk g]) acc = acc ++ l.map mk
  | [], acc => by simp
  | a :: t, acc => by
    simp only [List.foldl_cons, List.map_cons, foldl_append_map mk t, List.append_assoc,
      List.singleton_append]

theorem length_mkGrid (rows : Nat) (cols : Nat → Nat) (f : Nat → Nat → Bool) :
    (mkGrid rows cols f).length = rows := by
  simp [mkGrid]

theorem getD_mkGrid (rows : Nat) (cols : Nat → Nat) (f : Nat → Nat → Bool) (y : Nat)
    (hy : y < rows) :
    (mkGrid rows cols f).getD y [] = (List.range (cols y)).map fun x => f y x := by
  rw [List.getD_eq_getElem _ _ (by simpa [mkGrid] using hy)]
  simp [mkGrid]

theorem maskAt_mkGrid (rows : Nat) (cols : Nat → Nat) (f : Nat → Nat → Bool) (y x : Nat)
    (hy : y < rows) (hx : x < cols y) :
    maskAt (mkGrid rows cols f) y x = f y x := by
  rw [maskAt, getD_mkGrid rows cols f y hy]
  rw [List.getD_eq_getElem _ _ (by simpa using hx)]
  simp

theorem maskAt_lt (m : BMask) (y x : Nat) (h : maskAt m y x = true) :
    y < m.length ∧ x < (m.getD y []).length := by
  constructor
  · by_contra hy
    rw [maskAt, List.getD_eq_default m [] (by omega)] at h
    simp [List.getD] at h
  · by_contra hx
    rw [maskAt, List.getD_eq_default _ false (by omega)] at h
    exact Bool.false_ne_true h

theorem maskAt_mkGrid_iff (rows : Nat) (cols : Nat → Nat) (f : Nat → Nat → Bool) (y x : Nat) :
    maskAt (mkGrid rows cols f) y x = true ↔ y < rows ∧ x < cols y ∧ f y x = true := by
  constructor
  · intro h
    obtain ⟨hy, hx⟩ := maskAt_lt _ _ _ h
    rw [length_mkGrid] at hy
    rw [getD_mkGrid rows cols f y hy] at hx
    simp only [List.length_map, List.length_range] at hx
    refine ⟨hy, hx, ?_⟩
    rwa [maskAt_mkGrid rows cols f y x hy hx] at h
  · rintro ⟨hy, hx, hf⟩
    rwa [maskAt_mkGrid rows cols f y x hy hx]

theorem countTrue_ne_zero (m : BMask) (y x : Nat) (h : maskAt m y x = true) :
    countTrue m ≠ 0 := by
  obtain ⟨hy, hx⟩ := maskAt_lt m y x h
  rw [maskAt] at h
  rw [List.getD_eq_getElem _ _ hy] at h hx
  rw [List.getD_eq_getElem _ _ hx] at h
  have hrow : m[y] ∈ m := List.getElem_mem hy
  have htrue : true ∈ m[y] := h ▸ List.getElem_mem hx
  have hmem : true ∈ (m[y]).filter id := List.mem_filter.mpr ⟨htrue, rfl⟩
  have hpos : 0 < ((m[y]).filter id).length :=
    List.length_pos.mpr (List.ne_nil_of_mem hmem)
  have hle : ((m[y]).filter id).length ≤ (m.map fun row => (row.filter id).length).sum :=
    List.single_le_sum (by intro a _; omega) _
      (List.mem_map_of_mem (fun row => (row.filter id).length) hrow)
  unfold countTrue
  omega

theorem npIdx_natCast (n : Nat) (y : Nat) (hy : y < n) : npIdx n (y : Int) = some y := by
  unfold npIdx
  rw [if_pos (by omega), show ((y : Int)).toNat = y by omega]

theorem npGetB_eq_maskAt (m : BMask) (y x : Nat)
    (hy : y < m.length) (hx : x < (m.getD y []).length) :
    npGetB m (y : Int) (x : Int) = some (maskAt m y x) := by
  unfold npGetB
  rw [npIdx_natCast _ _ hy]
  simp only [npIdx_natCast _ _ hx, maskAt]

theorem getD_map_of_lt {α β : Type} (f : α → β) (l : List α) (i : Nat) (d : α) (d2 : β)
    (h : i < l.length) : (l.map f).getD i d2 = f (l.getD i d) := by
  rw [List.getD_eq_getElem _ _ (by simpa using h), List.getD_eq_getElem _ _ h,
    List.getElem_map]

theorem getD_zip_of_lt {α β : Type} (l : List α) (r : List β) (i : Nat) (dl : α) (dr : β)
    (h1 : i < l.length) (h2 : i < r.length) :
    (l.zip r).getD i (dl, dr) = (l.getD i dl, r.getD i dr) := by
  rw [List.getD_eq_getElem _ _ (by simp; omega), List.getD_eq_getElem _ _ h1,
    List.getD_eq_getElem _ _ h2, List.getElem_zip]

theorem mem_sortEpochs (l : List Epoch) (e : Epoch) : e ∈ sortEpochs l ↔ e ∈ l :=
  (List.perm_insertionSort _ l).mem_iff

theorem length_sortEpochs (l : List Epoch) : (sortEpochs l).length = l.length :=
  (List.perm_insertionSort _ l).length_eq

theorem filter_eq_single {α : Type} [DecidableEq α] (p : α → Bool) (a : α) :
    ∀ l : List α, a ∈ l → l.count a = 1 → (∀ b ∈ l, (p b = true ↔ b = a)) →
      l.filter p = [a]
  | [], hmem, _, _ => absurd hmem (List.not_mem_nil a)
  | h :: t, hmem, hcnt, hiff => by
    by_cases hha : h = a
    · subst hha
      have hc : (h :: t).count h = t.count h + 1 := List.count_cons_self h t
      have hnot : h ∉ t := by
        intro hm
        have := List.count_pos_iff.mpr hm
        omega
      rw [List.filter_cons_of_pos (by rw [hiff h (List.mem_cons_self h t)])]
      have hnil : t.filter p = [] := by
        rw [List.filter_eq_nil_iff]
        intro b hb hpb
        exact hnot ((hiff b (List.mem_cons_of_mem h hb)).mp hpb ▸ hb)
      rw [hnil]
    · have hpa : p h = false := by
        rcases Bool.eq_false_or_eq_true (p h) with ht | hf
        · exact absurd ((hiff h (List.mem_cons_self h t)).mp ht) hha
        · exact hf
      rw [List.filter_cons_of_neg (by simp [hpa])]
      have hmem' : a ∈ t := by
        rcases List.mem_cons.mp hmem with rfl | hm
        · exact absurd rfl hha
        · exact hm
      have hcnt' : t.count a = 1 := by
        have := List.count_cons a h t
        simp only [beq_iff_eq] at this
        rw [if_neg hha] at this
        omega
      exact filter_eq_single p a t hmem' hcnt'
        (fun b hb => hiff b (List.mem_cons_of_mem h hb))

theorem nodup_pixList (m : BMask) : (pixList m).Nodup := by
  unfold pixList
  rw [List.nodup_flatten]
  constructor
  · intro l hl
    simp only [List.mem_map] at hl
    obtain ⟨y, _, rfl⟩ := hl
    exact (List.nodup_range _).map (fun x1 x2 hx => by injection hx)
  · rw [List.pairwise_map]
    apply (List.pairwise_lt_range m.length).imp
    intro y1 y2 hlt a ha1 ha2
    simp only [List.mem_map] at ha1 ha2
    obtain ⟨x1, _, rfl⟩ := ha1
    obtain ⟨x2, _, heq⟩ := ha2
    have : y2 = y1 := congrArg Prod.fst heq
    omega

theorem mem_pixList (m : BMask) (y x : Nat)
    (hy : y < m.length) (hx : x < (m.getD y []).length) : (y, x) ∈ pixList m := by
  unfold pixList
  rw [List.mem_flatten]
  refine ⟨(List.range (m.getD y []).length).map (fun x => (y, x)), ?_, ?_⟩
  · exact List.mem_map_of_mem _ (List.mem_range.mpr hy)
  · exact List.mem_map_of_mem _ (List.mem_range.mpr hx)

theorem boxVals_single (data : Raster) (m : BMask) (y x : Nat) (v : ℚ)
    (hm : maskAt m y x = true) (hv : getPix data y x = some v) :
    boxVals data m ((x : Int), (y : Int), (x : Int) + 1, (y : Int) + 1) = [v] := by
  obtain ⟨hy, hx⟩ := maskAt_lt m y x hm
  unfold boxVals
  have hfil : (pixList m).filter
      (fun p => inBox ((x : Int), (y : Int), (x : Int) + 1, (y : Int) + 1) p
        && maskAt m p.1 p.2) = [(y, x)] := by
    apply filter_eq_single
    · exact mem_pixList m y x hy hx
    · exact List.count_eq_one_of_mem (nodup_pixList m) (mem_pixList m y x hy hx)
    · intro b _
      constructor
      · intro hcond
        simp only [inBox, Bool.and_eq_true, decide_eq_true_eq] at hcond
        have h1 : b.1 = y := by omega
        have h2 : b.2 = x := by omega
        cases b
        simp_all
      · rintro rfl
        simp [inBox, hm]
  rw [hfil]
  simp [hv]

theorem meanOver_single (data : Raster) (m : BMask) (y x : Nat) (v : ℚ)
    (hm : maskAt m y x = true) (hv : getPix data y x = some v) :
    meanOver data m ((x : Int), (y : Int), (x : Int) + 1, (y : Int) + 1) = v := by
  unfold meanOver
  rw [boxVals_single data m y x v hm hv]
  simp

theorem spatial_average_length (file : MultiFile) (m : BMask) (b : Int × Int × Int × Int) :
    (spatial_average file m b).length = (sortEpochs file.epochs).length := by
  simp [spatial_average]

theorem spatial_average_getD (file : MultiFile) (m : BMask) (b : Int × Int × Int × Int)
    (i : Nat) (h : i < (sortEpochs file.epochs).length) :
    (spatial_average file m b).getD i 0 =
      meanOver ((sortEpochs file.epochs).getD i dEp).data m b := by
  unfold spatial_average
  exact getD_map_of_lt _ _ i dEp 0 h

theorem seedEpochs_length (sorted : List Epoch) (refList : List ℚ) (fl : Bool)
    (xs ys : String) (h : sorted.length = refList.length) :
    (seedEpochs sorted refList fl xs ys).length = sorted.length := by
  simp [seedEpochs, h]

theorem seedEpochs_getD_data (sorted : List Epoch) (refList : List ℚ) (fl : Bool)
    (xs ys : String) (i : Nat) (h1 : i < sorted.length) (h2 : i < refList.length) :
    ((seedEpochs sorted refList fl xs ys).getD i dEp).data =
      subRaster ((sorted.getD i dEp).data) (refList.getD i 0) := by
  unfold seedEpochs
  rw [getD_map_of_lt _ _ i (dEp, (0 : ℚ)) dEp (by rw [List.length_zip]; omega)]
  rw [getD_zip_of_lt sorted refList i dEp 0 h1 h2]

theorem seed_file_reference_value_ok (file : MultiFile) (refList : List ℚ)
    (ys xs : String) (out : MultiFile)
    (hk : file.fileType ∈ multiEpochTypes)
    (hout : seed_file_reference_value file refList ys xs = Except.ok out) :
    (sortEpochs file.epochs).length = refList.length ∧
    ∃ fl : Bool, out.epochs = seedEpochs (sortEpochs file.epochs) refList fl xs ys := by
  unfold seed_file_reference_value at hout
  rw [if_pos hk] at hout
  by_cases hn : (sortEpochs file.epochs).length ≠ refList.length
  · rw [if_pos hn] at hout
    exact absurd hout (by simp)
  · push_neg at hn
    rw [if_neg (by omega)] at hout
    refine ⟨hn, ?_⟩
    by_cases hts : file.fileType = "timeseries"
    · rw [if_pos hts] at hout
      injection hout with h
      exact ⟨false, by rw [← h]⟩
    · rw [if_neg hts] at hout
      injection hout with h
      exact ⟨true, by rw [← h]⟩

theorem getPix_subRaster (d : Raster) (r : ℚ) (y x : Nat) :
    getPix (subRaster d r) y x = (getPix d y x).map (· - r) := by
  unfold getPix
  by_cases hy : y < d.length
  · have e1 : (subRaster d r).getD y [] = (d.getD y []).map (fun p => p.map (· - r)) := by
      unfold subRaster
      exact getD_map_of_lt _ d y [] [] hy
    rw [e1]
    by_cases hx : x < (d.getD y []).length
    · rw [getD_map_of_lt _ _ x none none hx]
    · have e2 : ((d.getD y []).map (fun p => p.map (· - r))).getD x none = none := by
        apply List.getD_eq_default
        simpa using (by omega : (d.getD y []).length ≤ x)
      have e3 : (d.getD y []).getD x none = none := List.getD_eq_default _ _ (by omega)
      rw [e2, e3]
      simp
  · have e1 : (subRaster d r).getD y [] = [] := by
      apply List.getD_eq_default
      simp only [subRaster, List.length_map]
      omega
    have e2 : d.getD y [] = [] := List.getD_eq_default _ _ (by omega)
    rw [e1, e2]
    simp [List.getD]

/-! ## Claim C1 -/

/-- C1: In value-mode re-referencing of a multi-epoch file, for every epoch
(the i-th in sorted key order, paired with the i-th reference value) the
output raster equals the input raster minus referenceValue(e) elementwise;
consequently, when the reference list is the single-anchor extraction at a
ValidityMask-true pixel `(y, x)` whose value is defined in every epoch, the
output value at `(y, x)` is 0 for every epoch. -/
theorem seed_value_mode_elementwise (file out : MultiFile) (refList : List ℚ)
    (ys xs : String) (mask : BMask) (y x : Nat)
    (hk : file.fileType ∈ multiEpochTypes)
    (hout : seed_file_reference_value file refList ys xs = Except.ok out) :
    out.epochs.length = (sortEpochs file.epochs).length ∧
    (∀ i, i < (sortEpochs file.epochs).length →
      (out.epochs.getD i dEp).data =
        subRaster ((sortEpochs file.epochs).getD i dEp).data (refList.getD i 0)) ∧
    (refList = spatial_average file mask ((x : Int), (y : Int), (x : Int) + 1, (y : Int) + 1) →
     maskAt mask y x = true →
     (∀ e ∈ file.epochs, (getPix e.data y x).isSome = true) →
     ∀ i, i < (sortEpochs file.epochs).length →
       getPix (out.epochs.getD i dEp).data y x = some 0) := by
  obtain ⟨hlen, fl, hep⟩ := seed_file_reference_value_ok file refList ys xs out hk hout
  refine ⟨?_, ?_, ?_⟩
  · rw [hep, seedEpochs_length _ _ _ _ _ hlen]
  · intro i hi
    rw [hep, seedEpochs_getD_data _ _ _ _ _ i hi (by omega)]
  · intro hrefs hm hvalid i hi
    rw [hep, seedEpochs_getD_data _ _ _ _ _ i hi (by omega), getPix_subRaster]
    have hmem : (sortEpochs file.epochs).getD i dEp ∈ file.epochs := by
      rw [← mem_sortEpochs, List.getD_eq_getElem _ _ hi]
      exact List.getElem_mem hi
    obtain ⟨v, hv⟩ := Option.isSome_iff_exists.mp (hvalid _ hmem)
    rw [hrefs, spatial_average_getD file mask _ i hi,
      meanOver_single _ mask y x v hm hv, hv]
    simp

/-- Witness for C1 at `wFile`, reference pixel `(1, 1)`: the output value at
the reference pixel of epoch 0 is 0. -/
theorem seed_value_mode_elementwise_witness :
    getPix ((wOut.epochs.getD 0 dEp).data) 1 1 = some 0 :=
  (seed_value_mode_elementwise wFile wOut wRef "1" "1" wMask 1 1 (by decide)
      rfl).2.2 rfl (by decide) (by decide) 0 (by decide)

/-! ## Claim C2 -/

/-- C2: In value-mode re-referencing of a multi-epoch file type, if the
length of the reference-value list differs from the number of epochs, the
function exits with status 1 (`SeedErr.exitCode`, raised before the output
file is created at source line 71, so no output or partial output exists). -/
theorem seed_value_mode_epoch_mismatch (file : MultiFile) (refList : List ℚ)
    (ys xs : String)
    (hk : file.fileType ∈ multiEpochTypes)
    (hn : (sortEpochs file.epochs).length ≠ refList.length) :
    seed_file_reference_value file refList ys xs =
      Except.error (.exitCode epochMismatchMsg) := by
  unfold seed_file_reference_value
  rw [if_pos hk, if_pos hn]

/-- Witness for C2: a two-epoch file against a one-element reference list. -/
theorem seed_value_mode_epoch_mismatch_witness :
    seed_file_reference_value demoFile2 [0] "" "" =
      Except.error (.exitCode epochMismatchMsg) :=
  seed_value_mode_epoch_mismatch demoFile2 [0] "" "" (by decide) (by decide)

/-! ## Claim C3 (corrected) -/

/-- C3 counterexample: the claim says seeding aborts with a non-zero status
if and ONLY if the ValidityMask has zero true pixels.  On `demoFile2` the
ValidityMask has three true pixels, yet seeding with the explicit in-bounds
coordinate `(1, 1)` (whose stack value is NaN) aborts with an uncaught
`ValueError` instead of succeeding or falling through. -/
theorem seed_abort_without_empty_mask :
    countTrue (validity_mask demoFile2 none) ≠ 0 ∧
    seed_file_inps demoFile2 ⟨some 1, some 1, none, none, 85 / 100, "random", false⟩ [] []
      = some (Except.error (.valueError noRefMsg)) := by
  constructor
  · decide
  · rfl

/-- C3 amended: seeding a file aborts with a non-zero exit status whenever
the ValidityMask contains zero true pixels — in that case the very first
check exits with status 1, so no output container is written and no fallback
strategy is attempted.  (The converse of the claim fails: seeding can also
abort for other reasons, e.g. an explicit reference pixel that is invalid in
the ValidityMask raises `ValueError`, as the counterexample shows.) -/
theorem seed_file_inps_empty_mask_exits (file : MultiFile) (inps : SeedInps)
    (draws clicks : List (Nat × Nat))
    (h0 : countTrue (validity_mask file inps.mask_file) = 0) :
    seed_file_inps file inps draws clicks =
      some (Except.error (.exitCode noValidPixelMsg)) := by
  simp only [seed_file_inps]
  rw [if_pos h0]

/-- Witness for the amended C3: an all-NaN stack exits before any strategy. -/
theorem seed_file_inps_empty_mask_exits_witness :
    seed_file_inps nanFile inpsDefault [] [] =
      some (Except.error (.exitCode noValidPixelMsg)) :=
  seed_file_inps_empty_mask_exits nanFile inpsDefault [] [] (by decide)

/-! ## Claim C4 (corrected) -/

/-- C4 counterexample: with every gate-surviving candidate already present in
the target container, the merge does return the container path and write
nothing, but the second component of the returned pair is `None`
(`fileList = None` at source line 234), not the empty list the claim
requires. -/
theorem merge_all_present_cex :
    roipac2multi_group_hdf5 "interferograms" [srcA] "f.h5" stateAB none noBaseline =
      Except.ok ⟨some "f.h5", none, stateAB⟩ ∧
    (none : Option (List SrcFile)) ≠ some [] := by
  exact ⟨rfl, by simp⟩

/-- C4 amended: when every candidate source surviving the Dimension Gate is
already present in the target container (the duplicate-removal pass of
`check_existed_hdf5_file` removes them all), the incremental merge writes
nothing — the on-disk state is returned unchanged — and returns the container
path together with `None` (Python `None`, printed as "no need to re-load")
in place of the list of added epoch ids. -/
theorem merge_all_present_returns_none (fileType : String) (fl fl1 : List SrcFile)
    (mw ml : Option Nat) (path : String) (f : H5File) (cw cl : Nat)
    (proj : Option String) (base : SrcFile → Option Attrs)
    (hgate : check_file_size fl none none = (fl1, mw, ml))
    (hne : fl1 ≠ [])
    (hrm : removeExisted (sortStrings (f.groups.map (·.name))) fl1 = Except.ok []) :
    roipac2multi_group_hdf5 fileType fl path (.present f cw cl) proj base =
      Except.ok ⟨some path, none, .present f cw cl⟩ := by
  simp only [roipac2multi_group_hdf5, hgate]
  rw [if_neg (by simp [hne])]
  simp only [check_existed_hdf5_file]
  rw [if_neg (by simp [hne]), hrm]
  simp only [List.isEmpty_nil, Bool.not_true, Bool.false_eq_true, if_false]
  rw [if_neg (by intro h; injection h with h2; exact hne h2.symm)]

/-- Witness for the amended C4 at the concrete 1-by-1 container. -/
theorem merge_all_present_returns_none_witness :
    roipac2multi_group_hdf5 "interferograms" [srcA] "f.h5" stateAB none noBaseline =
      Except.ok ⟨some "f.h5", none, stateAB⟩ :=
  merge_all_present_returns_none "interferograms" [srcA] [srcA] (some 1) (some 1)
    "f.h5" ⟨"interferograms", [grpA, grpB]⟩ 1 1 none noBaseline rfl (by simp) rfl

/-! ## Claim C9 (corrected) -/

/-- C9 counterexample: merging the single new source `C.unw` into the
readable container holding exactly `{A.unw, B.unw}` does NOT produce the
union `{A.unw, B.unw, C.unw}` — because no candidate is already present,
`fileList2 == fileList` holds and the container is reopened in truncating
`w` mode (source line 224), so the result holds only `{C.unw}` and the
stored epoch `A.unw` is destroyed. -/
theorem merge_no_overlap_truncates :
    roipac2multi_group_hdf5 "interferograms" [srcC] "f.h5" stateAB none noBaseline =
      Except.ok ⟨some "f.h5", some [srcC],
        .present ⟨"interferograms", [mkEpochGroup none noBaseline srcC]⟩ 1 1⟩ ∧
    grpA ∈ [grpA, grpB] ∧
    (∀ g ∈ [mkEpochGroup none noBaseline srcC], g.name ≠ grpA.name) := by
  refine ⟨rfl, by decide, by decide⟩

/-- C9 amended: the merge is append-only on the `r+` path, i.e. when the
batch mixes stored and new epochs: if the duplicate-removal pass removes at
least one candidate (`l2f ≠ fl1`) and a non-empty size-conforming remainder
`l2f` survives, the resulting container consists of exactly the old groups
(byte-identical, data and attributes untouched) followed by the groups
written for `l2f` — its epoch set is the union of the pre-existing and the
newly added epochs.  (When NO candidate is already present the container is
instead truncated, as the counterexample shows.) -/
theorem merge_rplus_append (fileType : String) (fl fl1 l2 l2f : List SrcFile)
    (mw ml : Option Nat) (path : String) (f : H5File) (cw cl : Nat)
    (proj : Option String) (base : SrcFile → Option Attrs)
    (hgate : check_file_size fl none none = (fl1, mw, ml))
    (hne : fl1 ≠ [])
    (hrm : removeExisted (sortStrings (f.groups.map (·.name))) fl1 = Except.ok l2)
    (hl2 : l2 ≠ [])
    (hsize : check_file_size l2 none none = (l2f, some cw, some cl))
    (hproper : l2f ≠ fl1)
    (hl2f : l2f ≠ [])
    (hft : f.fileType = fileType) :
    roipac2multi_group_hdf5 fileType fl path (.present f cw cl) proj base =
      Except.ok ⟨some path, some l2f,
        .present ⟨fileType, f.groups ++ l2f.map (mkEpochGroup proj base)⟩ cw cl⟩ := by
  simp only [roipac2multi_group_hdf5, hgate]
  rw [if_neg (by simp [hne])]
  simp only [check_existed_hdf5_file]
  rw [if_neg (by simp [hne]), hrm]
  simp only [hsize]
  rw [if_pos (by simp [hl2])]
  rw [if_neg (by simp : ¬((some cw ≠ some cw) ∨ (some cl ≠ some cl)))]
  simp only [if_neg (show ¬(some l2f = some fl1) from fun h => hproper (Option.some.inj h)),
    if_pos (show (!l2f.isEmpty) = true by simp [hl2f]), if_pos hft, foldl_append_map]

/-- Witness for the amended C9: container `{A.unw, B.unw}` merged with the
batch `{B.unw, C.unw}`; `B.unw` is dropped as already present, `C.unw` is
appended after the untouched old groups. -/
theorem merge_rplus_append_witness :
    roipac2multi_group_hdf5 "interferograms" [srcB, srcC] "f.h5" stateAB none noBaseline =
      Except.ok ⟨some "f.h5", some [srcC],
        .present ⟨"interferograms",
          [grpA, grpB] ++ [srcC].map (mkEpochGroup none noBaseline)⟩ 1 1⟩ :=
  merge_rplus_append "interferograms" [srcB, srcC] [srcB, srcC] [srcC] [srcC]
    (some 1) (some 1) "f.h5" ⟨"interferograms", [grpA, grpB]⟩ 1 1 none noBaseline
    rfl (by simp) rfl (by simp) rfl (by simp) (by simp) rfl

/-! ## Claim C5 -/

/-- C5: for every candidate list whose declared widths are
`[100, 100, 100, 50]` with matching heights, the Dimension Gate returns
exactly the three conforming files (the non-conforming one dropped, not a
hard failure) and reports mode width 100 (and mode length the shared
height). -/
theorem dimension_gate_mode_width (p0 p1 p2 p3 : String) (hgt : Nat)
    (d0 d1 d2 d3 : Raster) (a0 a1 a2 a3 : Attrs) :
    check_file_size
      [⟨p0, 100, hgt, d0, a0⟩, ⟨p1, 100, hgt, d1, a1⟩,
       ⟨p2, 100, hgt, d2, a2⟩, ⟨p3, 50, hgt, d3, a3⟩] none none =
    ([⟨p0, 100, hgt, d0, a0⟩, ⟨p1, 100, hgt, d1, a1⟩, ⟨p2, 100, hgt, d2, a2⟩],
     some 100, some hgt) := by
  have hml : mode [hgt, hgt, hgt, hgt] = some hgt := by
    simp [mode, countsOf, updateCount]
  have hmw : mode [100, 100, 100, 50] = some 100 := by decide
  have e3 : ([⟨p0, 100, hgt, d0, a0⟩, ⟨p1, 100, hgt, d1, a1⟩, ⟨p2, 100, hgt, d2, a2⟩,
      ⟨p3, 50, hgt, d3, a3⟩] : List SrcFile).erase ⟨p3, 50, hgt, d3, a3⟩
      = [⟨p0, 100, hgt, d0, a0⟩, ⟨p1, 100, hgt, d1, a1⟩, ⟨p2, 100, hgt, d2, a2⟩] := by
    rw [List.erase_cons_tail (by simp), List.erase_cons_tail (by simp),
        List.erase_cons_tail (by simp), List.erase_cons_head]
  simp [check_file_size, hmw, hml, e3]

/-! ## Claim C6 (corrected) -/

theorem updateCount_cons_pos (k v : Nat) (tl : List (Nat × Nat)) :
    updateCount ((k, v) :: tl) k = (k, v + 1) :: tl := by
  simp [updateCount]

theorem updateCount_cons_neg (k0 v k : Nat) (tl : List (Nat × Nat)) (hk : k0 ≠ k) :
    updateCount ((k0, v) :: tl) k = (k0, v) :: updateCount tl k := by
  simp [updateCount, hk]

theorem lookupC_cons (k0 v j : Nat) (tl : List (Nat × Nat)) :
    lookupC ((k0, v) :: tl) j = if k0 = j then v else lookupC tl j := rfl

theorem lookupC_updateCount (cs : List (Nat × Nat)) (k j : Nat) :
    lookupC (updateCount cs k) j = lookupC cs j + if j = k then 1 else 0 := by
  induction cs with
  | nil =>
    by_cases hj : j = k
    · subst hj
      simp [updateCount, lookupC]
    · simp [updateCount, lookupC, hj, Ne.symm hj]
  | cons hd tl ih =>
    obtain ⟨k0, v⟩ := hd
    by_cases hk : k0 = k
    · subst hk
      rw [updateCount_cons_pos, lookupC_cons, lookupC_cons]
      by_cases hj : k0 = j
      · rw [if_pos hj, if_pos hj, if_pos hj.symm]
      · rw [if_neg hj, if_neg hj, if_neg (fun h => hj h.symm)]
        omega
    · rw [updateCount_cons_neg k0 v k tl hk, lookupC_cons, lookupC_cons]
      by_cases hj : k0 = j
      · rw [if_pos hj, if_pos hj, if_neg (fun h => hk (hj.trans h))]
        omega
      · rw [if_neg hj, if_neg hj, ih]

theorem keys_updateCount (cs : List (Nat × Nat)) (k j : Nat) :
    j ∈ (updateCount cs k).map (·.1) ↔ j ∈ cs.map (·.1) ∨ j = k := by
  induction cs with
  | nil => simp [updateCount]
  | cons hd tl ih =>
    obtain ⟨k0, v⟩ := hd
    by_cases hk : k0 = k
    · subst hk
      rw [updateCount_cons_pos]
      simp only [List.map_cons, List.mem_cons]
      tauto
    · rw [updateCount_cons_neg k0 v k tl hk]
      simp only [List.map_cons, List.mem_cons, ih]
      tauto

theorem nodup_keys_updateCount (cs : List (Nat × Nat)) (k : Nat)
    (h : (cs.map (·.1)).Nodup) : ((updateCount cs k).map (·.1)).Nodup := by
  induction cs with
  | nil => simp [updateCount]
  | cons hd tl ih =>
    obtain ⟨k0, v⟩ := hd
    simp only [List.map_cons, List.nodup_cons] at h
    by_cases hk : k0 = k
    · subst hk
      rw [updateCount_cons_pos]
      simp only [List.map_cons, List.nodup_cons]
      exact h
    · rw [updateCount_cons_neg k0 v k tl hk]
      simp only [List.map_cons, List.nodup_cons]
      refine ⟨?_, ih h.2⟩
      rw [keys_updateCount]
      rintro (hm | rfl)
      · exact h.1 hm
      · exact hk rfl

theorem countsOf_loop_lookup (l : List Nat) :
    ∀ (acc : List (Nat × Nat)) (j : Nat),
      lookupC (l.foldl updateCount acc) j = lookupC acc j + l.count j := by
  induction l with
  | nil => intro acc j; simp [lookupC]
  | cons a t ih =>
    intro acc j
    rw [List.foldl_cons, ih (updateCount acc a) j, lookupC_updateCount]
    simp only [List.count_cons, beq_iff_eq]
    by_cases hj : j = a
    · simp [hj]
      omega
    · simp [hj, Ne.symm hj]

theorem countsOf_loop_keys (l : List Nat) :
    ∀ (acc : List (Nat × Nat)) (j : Nat),
      j ∈ (l.foldl updateCount acc).map (·.1) ↔ j ∈ acc.map (·.1) ∨ j ∈ l := by
  induction l with
  | nil => intro acc j; simp
  | cons a t ih =>
    intro acc j
    rw [List.foldl_cons, ih (updateCount acc a) j, keys_updateCount]
    simp only [List.mem_cons]
    tauto

theorem countsOf_loop_nodup (l : List Nat) :
    ∀ acc : List (Nat × Nat), (acc.map (·.1)).Nodup →
      ((l.foldl updateCount acc).map (·.1)).Nodup := by
  induction l with
  | nil => intro acc h; simpa using h
  | cons a t ih =>
    intro acc h
    rw [List.foldl_cons]
    exact ih (updateCount acc a) (nodup_keys_updateCount acc a h)

theorem lookupC_countsOf (l : List Nat) (j : Nat) : lookupC (countsOf l) j = l.count j := by
  rw [countsOf, countsOf_loop_lookup l [] j]
  simp [lookupC]

theorem mem_keys_countsOf (l : List Nat) (j : Nat) :
    j ∈ (countsOf l).map (·.1) ↔ j ∈ l := by
  rw [countsOf, countsOf_loop_keys l [] j]
  simp

theorem nodup_keys_countsOf (l : List Nat) : ((countsOf l).map (·.1)).Nodup := by
  rw [countsOf]
  exact countsOf_loop_nodup l [] (by simp)

theorem lookupC_of_mem (cs : List (Nat × Nat)) (h : (cs.map (·.1)).Nodup) :
    ∀ p ∈ cs, lookupC cs p.1 = p.2 := by
  induction cs with
  | nil => intro p hp; cases hp
  | cons hd tl ih =>
    intro p hp
    obtain ⟨k0, v⟩ := hd
    simp only [List.map_cons, List.nodup_cons] at h
    rcases List.mem_cons.mp hp with rfl | hp2
    · simp [lookupC]
    · simp only [lookupC]
      rw [if_neg, ih h.2 p hp2]
      intro hk
      exact h.1 (hk ▸ List.mem_map_of_mem (·.1) hp2)

theorem entry_countsOf (l : List Nat) (j : Nat) (hj : j ∈ l) :
    (j, l.count j) ∈ countsOf l := by
  obtain ⟨p, hp, hpj⟩ := List.mem_map.mp ((mem_keys_countsOf l j).mpr hj)
  have h1 : lookupC (countsOf l) p.1 = p.2 := lookupC_of_mem _ (nodup_keys_countsOf l) p hp
  rw [hpj, lookupC_countsOf] at h1
  have : p = (j, l.count j) := by
    obtain ⟨p1, p2⟩ := p
    simp only at hpj h1
    rw [hpj, ← h1]
  rwa [this] at hp

theorem val_countsOf (l : List Nat) (p : Nat × Nat) (hp : p ∈ countsOf l) :
    p.2 = l.count p.1 ∧ p.1 ∈ l := by
  have h1 : lookupC (countsOf l) p.1 = p.2 := lookupC_of_mem _ (nodup_keys_countsOf l) p hp
  rw [lookupC_countsOf] at h1
  refine ⟨h1.symm, ?_⟩
  rw [← mem_keys_countsOf]
  exact List.mem_map_of_mem (·.1) hp

theorem foldlMax_le_init (cs : List (Nat × Nat)) :
    ∀ a : Nat, a ≤ cs.foldl (fun m p => max m p.2) a := by
  induction cs with
  | nil => intro a; simp
  | cons q t ih =>
    intro a
    rw [List.foldl_cons]
    exact le_trans (Nat.le_max_left a q.2) (ih (max a q.2))

theorem snd_le_foldlMax (cs : List (Nat × Nat)) (p : Nat × Nat) (hp : p ∈ cs) :
    ∀ a : Nat, p.2 ≤ cs.foldl (fun m q => max m q.2) a := by
  induction cs with
  | nil => cases hp
  | cons q t ih =>
    intro a
    rw [List.foldl_cons]
    rcases List.mem_cons.mp hp with rfl | hp2
    · exact le_trans (Nat.le_max_right a p.2) (foldlMax_le_init t (max a p.2))
    · exact ih hp2 (max a q.2)

theorem foldlMax_eq_or_mem (cs : List (Nat × Nat)) :
    ∀ a : Nat, cs.foldl (fun m q => max m q.2) a = a ∨
      ∃ p ∈ cs, cs.foldl (fun m q => max m q.2) a = p.2 := by
  induction cs with
  | nil => intro a; exact Or.inl rfl
  | cons q t ih =>
    intro a
    rw [List.foldl_cons]
    rcases ih (max a q.2) with h | ⟨p, hp, he⟩
    · rcases Nat.le_total a q.2 with hle | hle
      · exact Or.inr ⟨q, List.mem_cons_self q t, by rw [h, Nat.max_eq_right hle]⟩
      · exact Or.inl (by rw [h, Nat.max_eq_left hle])
    · exact Or.inr ⟨p, List.mem_cons_of_mem q hp, he⟩

theorem one_lt_length_of_two_mem {α : Type} {xs : List α} {x y : α}
    (hx : x ∈ xs) (hy : y ∈ xs) (hne : x ≠ y) : 1 < xs.length := by
  cases xs with
  | nil => cases hx
  | cons a t =>
    cases t with
    | nil =>
      simp only [List.mem_singleton] at hx hy
      exact absurd (hx.trans hy.symm) hne
    | cons b t2 =>
      simp only [List.length_cons]
      omega

/-- C6 counterexample: the claim says the mode is undefined (None) whenever
the most frequent value occurs exactly once; in the singleton list `[5]`
every value occurs exactly once, yet `mode` returns `some 5` (the dedicated
`len(thelist) == 1` branch at source line 93). -/
theorem mode_singleton_cex :
    (∀ v ∈ ([5] : List Nat), ([5] : List Nat).count v = 1) ∧ mode [5] = some 5 := by
  constructor
  · decide
  · rfl

/-- C6 amended: a singleton list is returned as its own mode; for every list
of two or more size values, the computed mode is `none` exactly when the most
frequent value occurs exactly once or two or more values tie for
most-frequent; otherwise it is the unique most frequent value. -/
theorem mode_policy :
    (∀ x : Nat, mode [x] = some x) ∧
    ∀ l : List Nat, 2 ≤ l.length →
      ((mode l = none ↔
          (∀ v ∈ l, l.count v = 1) ∨
          ∃ a ∈ l, ∃ b ∈ l, a ≠ b ∧ l.count a = l.count b ∧
            ∀ v ∈ l, l.count v ≤ l.count a) ∧
       ∀ m, mode l = some m →
         m ∈ l ∧ (∀ v ∈ l, l.count v ≤ l.count m) ∧
           ∀ v ∈ l, l.count v = l.count m → v = m) := by
  constructor
  · intro x; rfl
  · intro l hl
    match l, hl with
    | a :: b :: t, _ =>
    set l := a :: b :: t with hldef
    set counts := countsOf l with hc
    set maxcount := counts.foldl (fun m p => max m p.2) 0 with hmax
    have hmode : mode l =
        if maxcount = 1 then none
        else if 1 < (counts.filter fun p => p.2 == maxcount).length then none
        else (counts.find? fun p => p.2 == maxcount).map (·.1) := rfl
    have hub : ∀ v ∈ l, l.count v ≤ maxcount := by
      intro v hv
      exact snd_le_foldlMax counts (v, l.count v) (entry_countsOf l v hv) 0
    have hach : ∃ w ∈ l, l.count w = maxcount := by
      rcases foldlMax_eq_or_mem counts 0 with h0 | ⟨p, hp, he⟩
      · exfalso
        have ha : a ∈ l := List.mem_cons_self a (b :: t)
        have := hub a ha
        have := List.count_pos_iff.mpr ha
        omega
      · obtain ⟨hpv, hpl⟩ := val_countsOf l p hp
        exact ⟨p.1, hpl, by omega⟩
    have hsubl : ((counts.filter fun p => p.2 == maxcount).map (·.1)).Sublist
        (counts.map (·.1)) := (List.filter_sublist counts).map (·.1)
    have hfilkeys : ((counts.filter fun p => p.2 == maxcount).map (·.1)).Nodup :=
      (nodup_keys_countsOf l).sublist hsubl
    constructor
    · constructor
      · intro hnone
        rw [hmode] at hnone
        by_cases h1 : maxcount = 1
        · left
          intro v hv
          have h2 := hub v hv
          have h3 := List.count_pos_iff.mpr hv
          omega
        · rw [if_neg h1] at hnone
          by_cases h2 : 1 < (counts.filter fun p => p.2 == maxcount).length
          · right
            rcases hfl : counts.filter fun p => p.2 == maxcount with _ | ⟨P, _ | ⟨Q, R⟩⟩
            · rw [hfl] at h2; simp at h2
            · rw [hfl] at h2; simp at h2
            · have hP : P ∈ counts.filter fun p => p.2 == maxcount := by
                rw [hfl]; exact List.mem_cons_self P (Q :: R)
              have hQ : Q ∈ counts.filter fun p => p.2 == maxcount := by
                rw [hfl]
                exact List.mem_cons_of_mem P (List.mem_cons_self Q R)
              have hPQ : P.1 ≠ Q.1 := by
                rw [hfl] at hfilkeys
                simp only [List.map_cons, List.nodup_cons, List.mem_cons] at hfilkeys
                intro h
                exact hfilkeys.1 (Or.inl h)
              obtain ⟨hPv, hPl⟩ := val_countsOf l P (List.mem_of_mem_filter hP)
              obtain ⟨hQv, hQl⟩ := val_countsOf l Q (List.mem_of_mem_filter hQ)
              have hPm : P.2 = maxcount := by simpa using List.of_mem_filter hP
              have hQm : Q.2 = maxcount := by simpa using List.of_mem_filter hQ
              refine ⟨P.1, hPl, Q.1, hQl, hPQ, by omega, ?_⟩
              intro v hv
              have := hub v hv
              omega
          · rw [if_neg h2] at hnone
            exfalso
            obtain ⟨w, hw, hcw⟩ := hach
            have hfind : ((counts.find? fun p => p.2 == maxcount)).isSome :=
              List.find?_isSome.mpr
                ⟨(w, l.count w), entry_countsOf l w hw, by simp [hcw]⟩
            obtain ⟨p, hp⟩ := Option.isSome_iff_exists.mp hfind
            rw [hp] at hnone
            simp at hnone
      · intro hrhs
        rw [hmode]
        rcases hrhs with hall | ⟨A, hA, B, hB, hAB, hcnt, hmaxA⟩
        · have h1 : maxcount = 1 := by
            obtain ⟨w, hw, hcw⟩ := hach
            have := hall w hw
            omega
          rw [if_pos h1]
        · by_cases h1 : maxcount = 1
          · rw [if_pos h1]
          · rw [if_neg h1]
            have hAmax : l.count A = maxcount := by
              obtain ⟨w, hw, hcw⟩ := hach
              have h3 := hub A hA
              have h4 := hmaxA w hw
              omega
            have hBmax : l.count B = maxcount := by omega
            have hfA : (A, l.count A) ∈ counts.filter fun p => p.2 == maxcount :=
              List.mem_filter.mpr ⟨entry_countsOf l A hA, by simp [hAmax]⟩
            have hfB : (B, l.count B) ∈ counts.filter fun p => p.2 == maxcount :=
              List.mem_filter.mpr ⟨entry_countsOf l B hB, by simp [hBmax]⟩
            have hne : ((A, l.count A) : Nat × Nat) ≠ (B, l.count B) :=
              fun h => hAB (congrArg Prod.fst h)
            rw [if_pos (one_lt_length_of_two_mem hfA hfB hne)]
    · intro m hm
      rw [hmode] at hm
      by_cases h1 : maxcount = 1
      · rw [if_pos h1] at hm
        exact absurd hm (by simp)
      · rw [if_neg h1] at hm
        by_cases h2 : 1 < (counts.filter fun p => p.2 == maxcount).length
        · rw [if_pos h2] at hm
          exact absurd hm (by simp)
        · rw [if_neg h2] at hm
          obtain ⟨p, hfind, hpm⟩ := Option.map_eq_some'.mp hm
          have hpmem := List.mem_of_find?_eq_some hfind
          have hppred := List.find?_some hfind
          have hp2 : p.2 = maxcount := by simpa using hppred
          obtain ⟨hpv, hpl⟩ := val_countsOf l p hpmem
          have hcm : l.count m = maxcount := by rw [← hpm, ← hpv, hp2]
          subst hpm
          refine ⟨hpl, ?_, ?_⟩
          · intro v hv
            have := hub v hv
            omega
          · intro v hv hveq
            by_contra hvm
            have hfv : (v, l.count v) ∈ counts.filter fun p => p.2 == maxcount :=
              List.mem_filter.mpr ⟨entry_countsOf l v hv, by simp; omega⟩
            have hfp : p ∈ counts.filter fun q => q.2 == maxcount :=
              List.mem_filter.mpr ⟨hpmem, hppred⟩
            have hne : (v, l.count v) ≠ p := fun h => hvm (congrArg Prod.fst h)
            exact absurd (one_lt_length_of_two_mem hfv hfp hne) h2

/-- Witness for the amended C6 at the list `[3, 3, 4]`. -/
theorem mode_policy_witness :
    ((mode [3, 3, 4] = none ↔
        (∀ v ∈ ([3, 3, 4] : List Nat), ([3, 3, 4] : List Nat).count v = 1) ∨
        ∃ a ∈ ([3, 3, 4] : List Nat), ∃ b ∈ ([3, 3, 4] : List Nat), a ≠ b ∧
          ([3, 3, 4] : List Nat).count a = ([3, 3, 4] : List Nat).count b ∧
          ∀ v ∈ ([3, 3, 4] : List Nat),
            ([3, 3, 4] : List Nat).count v ≤ ([3, 3, 4] : List Nat).count a) ∧
     ∀ m, mode [3, 3, 4] = some m →
       m ∈ ([3, 3, 4] : List Nat) ∧
       (∀ v ∈ ([3, 3, 4] : List Nat),
         ([3, 3, 4] : List Nat).count v ≤ ([3, 3, 4] : List Nat).count m) ∧
       ∀ v ∈ ([3, 3, 4] : List Nat),
         ([3, 3, 4] : List Nat).count v = ([3, 3, 4] : List Nat).count m → v = m) :=
  mode_policy.2 [3, 3, 4] (by decide)

/-! ## Pipeline lemmas for the resolver claims -/

theorem validity_mask_length (file : MultiFile) (mf : Option Raster) :
    (validity_mask file mf).length = file.length := length_mkGrid _ _ _

theorem validity_mask_row (file : MultiFile) (mf : Option Raster) (y : Nat)
    (hy : y < file.length) :
    ((validity_mask file mf).getD y []).length = file.width := by
  rw [validity_mask, getD_mkGrid _ _ _ _ hy]
  simp

theorem truthyI_some (y : Int) (hy : y ≠ 0) : truthyI (some y) = true := by
  simp [truthyI, hy]

theorem step21_skip (mask : BMask) (inps : SeedInps) (draws clicks : List (Nat × Nat))
    (hty : truthyI inps.ref_y = true) (htx : truthyI inps.ref_x = true) :
    step21 mask inps draws clicks = some inps := by
  unfold step21
  rw [hty, htx]
  simp

theorem step22_falsy_y (file : MultiFile) (mask : BMask) (inps : SeedInps)
    (h : truthyI inps.ref_y = false) :
    step22 file mask inps = Except.error (.valueError noRefMsg) := by
  unfold step22
  rw [h]
  simp

theorem step22_falsy_x (file : MultiFile) (mask : BMask) (inps : SeedInps)
    (h : truthyI inps.ref_x = false) :
    step22 file mask inps = Except.error (.valueError noRefMsg) := by
  unfold step22
  rw [h]
  simp

theorem step22_eval (file : MultiFile) (mask : BMask) (inps : SeedInps) (y x : Nat)
    (hy : inps.ref_y = some ((y : Nat) : Int)) (hx : inps.ref_x = some ((x : Nat) : Int))
    (hy0 : y ≠ 0) (hx0 : x ≠ 0)
    (hyl : y < mask.length) (hxl : x < (mask.getD y []).length) :
    step22 file mask inps =
      if maskAt mask y x then
        (if inps.mark_attribute then
          Except.ok (.marked (add_attribute file
            [("ref_x", toString ((x : Nat) : Int)), ("ref_y", toString ((y : Nat) : Int))]))
        else (seed_file_reference_value file
            (spatial_average file mask ((x : Int), (y : Int), (x : Int) + 1, (y : Int) + 1))
            (toString ((y : Nat) : Int)) (toString ((x : Nat) : Int))).map .newFile)
      else Except.error (.valueError noRefMsg) := by
  have hty : truthyI inps.ref_y = true := by
    rw [hy]
    exact truthyI_some _ (by exact_mod_cast hy0)
  have htx : truthyI inps.ref_x = true := by
    rw [hx]
    exact truthyI_some _ (by exact_mod_cast hx0)
  unfold step22
  rw [hty, htx]
  simp only [Bool.and_self, if_true]
  have hgy : getI inps.ref_y = ((y : Nat) : Int) := by rw [hy]; rfl
  have hgx : getI inps.ref_x = ((x : Nat) : Int) := by rw [hx]; rfl
  rw [hgy, hgx, npGetB_eq_maskAt mask y x hyl hxl]

theorem seed_file_inps_skip (file : MultiFile) (inps : SeedInps)
    (draws clicks : List (Nat × Nat))
    (hcnt : countTrue (validity_mask file inps.mask_file) ≠ 0)
    (hga : inps.method ≠ "global-average")
    (hty : truthyI inps.ref_y = true) (htx : truthyI inps.ref_x = true) :
    seed_file_inps file inps draws clicks
      = some (step22 file (validity_mask file inps.mask_file) inps) := by
  unfold seed_file_inps
  rw [if_neg hcnt, if_neg hga, step21_skip _ _ _ _ hty htx]

theorem main_resolve_commit (L W : Int) (inps : SeedInps) (y x : Int)
    (hy : inps.ref_y = some y) (hx : inps.ref_x = some x)
    (hy0 : y ≠ 0) (hx0 : x ≠ 0)
    (hcov : 0 ≤ y ∧ y ≤ L ∧ 0 ≤ x ∧ x ≤ W)
    (hmf : ∀ m ∈ inps.mask_file, ∃ p, npGetQ m y x = some p ∧ (p == some 0) = false) :
    main_resolve L W inps = .ok { inps with method := "input-coord" } := by
  have hty : truthyI inps.ref_y = true := by rw [hy]; exact truthyI_some y hy0
  have htx : truthyI inps.ref_x = true := by rw [hx]; exact truthyI_some x hx0
  have hgy : getI inps.ref_y = y := by rw [hy]; rfl
  have hgx : getI inps.ref_x = x := by rw [hx]; rfl
  have hcond : (truthyI inps.ref_y && truthyI inps.ref_x &&
      !(decide (0 ≤ getI inps.ref_y) && decide (getI inps.ref_y ≤ L) &&
        decide (0 ≤ getI inps.ref_x) && decide (getI inps.ref_x ≤ W))) = false := by
    rw [hty, htx, hgy, hgx]
    simp only [decide_eq_true_eq, Bool.true_and]
    simp [hcov.1, hcov.2.1, hcov.2.2.1, hcov.2.2.2]
  unfold main_resolve
  rw [hcond]
  simp only [Bool.false_eq_true, if_false]
  cases hm : inps.mask_file with
  | none =>
    unfold set_method
    rw [hty, htx]
    simp [hm]
  | some m =>
    rw [hty, htx]
    simp only [Bool.and_self, if_true]
    obtain ⟨p, hp, hp0⟩ := hmf m hm
    rw [hgy, hgx, hp]
    simp only [hp0, Bool.false_eq_true, if_false]
    unfold set_method
    rw [hty, htx]
    simp [hm]

theorem main_resolve_clear (L W : Int) (inps : SeedInps) (y x : Int)
    (hy : inps.ref_y = some y) (hx : inps.ref_x = some x)
    (hy0 : y ≠ 0) (hx0 : x ≠ 0)
    (hout : ¬(0 ≤ y ∧ y ≤ L ∧ 0 ≤ x ∧ x ≤ W)) :
    main_resolve L W inps = main_resolve L W { inps with ref_y := none, ref_x := none } := by
  have hty : truthyI inps.ref_y = true := by rw [hy]; exact truthyI_some y hy0
  have htx : truthyI inps.ref_x = true := by rw [hx]; exact truthyI_some x hx0
  have hgy : getI inps.ref_y = y := by rw [hy]; rfl
  have hgx : getI inps.ref_x = x := by rw [hx]; rfl
  have hcond : (truthyI inps.ref_y && truthyI inps.ref_x &&
      !(decide (0 ≤ getI inps.ref_y) && decide (getI inps.ref_y ≤ L) &&
        decide (0 ≤ getI inps.ref_x) && decide (getI inps.ref_x ≤ W))) = true := by
    rw [hty, htx, hgy, hgx]
    simp only [Bool.true_and, Bool.not_eq_eq_eq_not, Bool.not_true, decide_eq_true_eq]
    simp only [Bool.and_eq_false_iff, decide_eq_false_iff_not]
    tauto
  unfold main_resolve
  rw [if_pos hcond]
  rw [if_neg (by simp [truthyI] : ¬((truthyI (none : Option Int) &&
    truthyI ({ inps with ref_y := none, ref_x := none } : SeedInps).ref_x && _) = true))]

theorem main_resolve_cleared (L W : Int) (inps : SeedInps)
    (h1 : truthyI inps.ref_y = false) :
    main_resolve L W inps = .ok (set_method inps) := by
  unfold main_resolve
  rw [h1]
  simp only [Bool.false_and, Bool.false_eq_true, if_false]
  cases hm : inps.mask_file with
  | none => rfl
  | some m =>
    rw [h1]
    simp

theorem select_max_coherence_ok (coh : Raster) (mask : BMask) (mc : ℚ)
    (draws : List (Nat × Nat)) (cy cx : Nat) (hmc : 0 < mc)
    (hsel : select_max_coherence_yx coh mask mc draws = some (cy, cx)) :
    maskAt mask cy cx = true ∧ ∃ v, getPix coh cy cx = some v ∧ mc ≤ v := by
  unfold select_max_coherence_yx random_select_reference_yx at hsel
  obtain ⟨p, hfind⟩ : ∃ p, draws.find? (fun p => maskAt (coherence_mask coh mask mc) p.1 p.2)
      = some p := ⟨(cy, cx), hsel⟩
  have hcm : maskAt (coherence_mask coh mask mc) cy cx = true := by
    have := List.find?_some hsel
    simpa using this
  rw [coherence_mask, maskAt_mkGrid_iff] at hcm
  obtain ⟨hyl, hxl, hcell⟩ := hcm
  by_cases hmk : maskAt mask cy cx = true
  · refine ⟨hmk, ?_⟩
    rw [if_pos hmk] at hcell
    cases hv : getPix coh cy cx with
    | none => rw [hv] at hcell; simp at hcell
    | some v =>
      rw [hv] at hcell
      simp only [decide_eq_true_eq] at hcell
      exact ⟨v, rfl, hcell⟩
  · exfalso
    rw [if_neg hmk] at hcell
    simp only [decide_eq_true_eq] at hcell
    exact absurd hcell (not_le.mpr hmc)

theorem manual_congr_y (mask : BMask) :
    ∀ (clicks : List (Nat × Nat)) (rx : Option Int) (mf cf : Option Raster)
      (mc : ℚ) (mth : String) (mrk : Bool),
      manual_select_reference_yx mask ⟨some 0, rx, mf, cf, mc, mth, mrk⟩ clicks
        = manual_select_reference_yx mask ⟨none, rx, mf, cf, mc, mth, mrk⟩ clicks ∨
      (manual_select_reference_yx mask ⟨some 0, rx, mf, cf, mc, mth, mrk⟩ clicks
         = ⟨some 0, rx, mf, cf, mc, mth, mrk⟩ ∧
       manual_select_reference_yx mask ⟨none, rx, mf, cf, mc, mth, mrk⟩ clicks
         = ⟨none, rx, mf, cf, mc, mth, mrk⟩)
  | [], rx, mf, cf, mc, mth, mrk => Or.inr ⟨rfl, rfl⟩
  | c :: cs, rx, mf, cf, mc, mth, mrk => by
    unfold manual_select_reference_yx
    rw [List.foldl_cons, List.foldl_cons]
    by_cases hc : maskAt mask c.1 c.2 = true
    · rw [if_pos hc, if_pos hc]
      exact Or.inl rfl
    · rw [if_neg hc, if_neg hc]
      exact manual_congr_y mask cs rx mf cf mc mth mrk

theorem manual_congr_x (mask : BMask) :
    ∀ (clicks : List (Nat × Nat)) (ry : Option Int) (mf cf : Option Raster)
      (mc : ℚ) (mth : String) (mrk : Bool),
      manual_select_reference_yx mask ⟨ry, some 0, mf, cf, mc, mth, mrk⟩ clicks
        = manual_select_reference_yx mask ⟨ry, none, mf, cf, mc, mth, mrk⟩ clicks ∨
      (manual_select_reference_yx mask ⟨ry, some 0, mf, cf, mc, mth, mrk⟩ clicks
         = ⟨ry, some 0, mf, cf, mc, mth, mrk⟩ ∧
       manual_select_reference_yx mask ⟨ry, none, mf, cf, mc, mth, mrk⟩ clicks
         = ⟨ry, none, mf, cf, mc, mth, mrk⟩)
  | [], ry, mf, cf, mc, mth, mrk => Or.inr ⟨rfl, rfl⟩
  | c :: cs, ry, mf, cf, mc, mth, mrk => by
    unfold manual_select_reference_yx
    rw [List.foldl_cons, List.foldl_cons]
    by_cases hc : maskAt mask c.1 c.2 = true
    · rw [if_pos hc, if_pos hc]
      exact Or.inl rfl
    · rw [if_neg hc, if_neg hc]
      exact manual_congr_x mask cs ry mf cf mc mth mrk

theorem step21_zero_y (mask : BMask) (draws clicks : List (Nat × Nat)) (rx : Option Int)
    (mf cf : Option Raster) (mc : ℚ) (mth : String) (mrk : Bool) :
    step21 mask ⟨some 0, rx, mf, cf, mc, mth, mrk⟩ draws clicks
      = step21 mask ⟨none, rx, mf, cf, mc, mth, mrk⟩ draws clicks ∨
    (step21 mask ⟨some 0, rx, mf, cf, mc, mth, mrk⟩ draws clicks
       = some ⟨some 0, rx, mf, cf, mc, mth, mrk⟩ ∧
     step21 mask ⟨none, rx, mf, cf, mc, mth, mrk⟩ draws clicks
       = some ⟨none, rx, mf, cf, mc, mth, mrk⟩) := by
  unfold step21
  dsimp only []
  rw [show truthyI (some (0 : Int)) = false from rfl,
      show truthyI (none : Option Int) = false from rfl]
  simp only [Bool.not_false, Bool.true_or]
  rw [if_pos trivial, if_pos trivial]
  cases cf with
  | some coh =>
    dsimp only []
    cases hsel : select_max_coherence_yx coh mask mc draws with
    | some yx => exact Or.inl rfl
    | none => exact Or.inl rfl
  | none =>
    dsimp only []
    by_cases hr : mth = "random"
    · rw [if_pos hr, if_pos hr]
      cases hsel : random_select_reference_yx mask draws with
      | some yx => exact Or.inl rfl
      | none => exact Or.inl rfl
    · rw [if_neg hr, if_neg hr]
      by_cases hman : mth = "manual"
      · rw [if_pos hman, if_pos hman]
        rcases manual_congr_y mask clicks rx mf none mc mth mrk with he | ⟨ha, hb⟩
        · exact Or.inl (congrArg some he)
        · exact Or.inr ⟨congrArg some ha, congrArg some hb⟩
      · rw [if_neg hman, if_neg hman]
        exact Or.inr ⟨rfl, rfl⟩

theorem step21_zero_x (mask : BMask) (draws clicks : List (Nat × Nat)) (ry : Option Int)
    (mf cf : Option Raster) (mc : ℚ) (mth : String) (mrk : Bool) :
    step21 mask ⟨ry, some 0, mf, cf, mc, mth, mrk⟩ draws clicks
      = step21 mask ⟨ry, none, mf, cf, mc, mth, mrk⟩ draws clicks ∨
    (step21 mask ⟨ry, some 0, mf, cf, mc, mth, mrk⟩ draws clicks
       = some ⟨ry, some 0, mf, cf, mc, mth, mrk⟩ ∧
     step21 mask ⟨ry, none, mf, cf, mc, mth, mrk⟩ draws clicks
       = some ⟨ry, none, mf, cf, mc, mth, mrk⟩) := by
  unfold step21
  dsimp only []
  rw [show truthyI (some (0 : Int)) = false from rfl,
      show truthyI (none : Option Int) = false from rfl]
  simp only [Bool.not_false, Bool.or_true]
  rw [if_pos trivial, if_pos trivial]
  cases cf with
  | some coh =>
    dsimp only []
    cases hsel : select_max_coherence_yx coh mask mc draws with
    | some yx => exact Or.inl rfl
    | none => exact Or.inl rfl
  | none =>
    dsimp only []
    by_cases hr : mth = "random"
    · rw [if_pos hr, if_pos hr]
      cases hsel : random_select_reference_yx mask draws with
      | some yx => exact Or.inl rfl
      | none => exact Or.inl rfl
    · rw [if_neg hr, if_neg hr]
      by_cases hman : mth = "manual"
      · rw [if_pos hman, if_pos hman]
        rcases manual_congr_x mask clicks ry mf none mc mth mrk with he | ⟨ha, hb⟩
        · exact Or.inl (congrArg some he)
        · exact Or.inr ⟨congrArg some ha, congrArg some hb⟩
      · rw [if_neg hman, if_neg hman]
        exact Or.inr ⟨rfl, rfl⟩

theorem seed_file_inps_zero_y (file : MultiFile) (draws clicks : List (Nat × Nat))
    (rx : Option Int) (mf cf : Option Raster) (mc : ℚ) (mth : String) (mrk : Bool) :
    seed_file_inps file ⟨some 0, rx, mf, cf, mc, mth, mrk⟩ draws clicks
      = seed_file_inps file ⟨none, rx, mf, cf, mc, mth, mrk⟩ draws clicks := by
  unfold seed_file_inps
  dsimp only []
  by_cases h0 : countTrue (validity_mask file mf) = 0
  · rw [if_pos h0, if_pos h0]
  · rw [if_neg h0, if_neg h0]
    by_cases hg : mth = "global-average"
    · rw [if_pos hg, if_pos hg]
    · rw [if_neg hg, if_neg hg]
      rcases step21_zero_y (validity_mask file mf) draws clicks rx mf cf mc mth mrk with
        he | ⟨ha, hb⟩
      · rw [he]
      · rw [ha, hb]
        dsimp only []
        rw [step22_falsy_y file (validity_mask file mf) ⟨some 0, rx, mf, cf, mc, mth, mrk⟩ rfl,
          step22_falsy_y file (validity_mask file mf) ⟨none, rx, mf, cf, mc, mth, mrk⟩ rfl]

theorem seed_file_inps_zero_x (file : MultiFile) (draws clicks : List (Nat × Nat))
    (ry : Option Int) (mf cf : Option Raster) (mc : ℚ) (mth : String) (mrk : Bool) :
    seed_file_inps file ⟨ry, some 0, mf, cf, mc, mth, mrk⟩ draws clicks
      = seed_file_inps file ⟨ry, none, mf, cf, mc, mth, mrk⟩ draws clicks := by
  unfold seed_file_inps
  dsimp only []
  by_cases h0 : countTrue (validity_mask file mf) = 0
  · rw [if_pos h0, if_pos h0]
  · rw [if_neg h0, if_neg h0]
    by_cases hg : mth = "global-average"
    · rw [if_pos hg, if_pos hg]
    · rw [if_neg hg, if_neg hg]
      rcases step21_zero_x (validity_mask file mf) draws clicks ry mf cf mc mth mrk with
        he | ⟨ha, hb⟩
      · rw [he]
      · rw [ha, hb]
        dsimp only []
        rw [step22_falsy_x file (validity_mask file mf) ⟨ry, some 0, mf, cf, mc, mth, mrk⟩ rfl,
          step22_falsy_x file (validity_mask file mf) ⟨ry, none, mf, cf, mc, mth, mrk⟩ rfl]

theorem main_resolve_cleared_x (L W : Int) (inps : SeedInps)
    (h2 : truthyI inps.ref_x = false) :
    main_resolve L W inps = .ok (set_method inps) := by
  unfold main_resolve
  rw [h2]
  simp only [Bool.and_false, Bool.false_and, Bool.false_eq_true, if_false]
  cases hm : inps.mask_file with
  | none => rfl
  | some m =>
    rw [h2]
    simp

theorem set_method_falsy_x (inps : SeedInps) (h : truthyI inps.ref_x = false) :
    set_method inps =
      if inps.coherence_file.isSome then { inps with method := "max-coherence" } else inps := by
  unfold set_method
  rw [h]
  simp

theorem main_resolve_clear_ok (L W : Int) (inps : SeedInps) (y x : Int)
    (hy : inps.ref_y = some y) (hx : inps.ref_x = some x)
    (hy0 : y ≠ 0) (hx0 : x ≠ 0)
    (hout : ¬(0 ≤ y ∧ y ≤ L ∧ 0 ≤ x ∧ x ≤ W)) :
    main_resolve L W inps = .ok (set_method { inps with ref_y := none, ref_x := none }) :=
  (main_resolve_clear L W inps y x hy hx hy0 hx0 hout).trans
    (main_resolve_cleared L W _ rfl)

/-- C10: supplying `ref_y = 0` or `ref_x = 0` behaves exactly like not
supplying that coordinate at all: Python truthiness makes the zero coordinate
falsy, so the explicit-coordinate strategy never commits it and the pipeline
resolves by another strategy (or fails), observably identically to the
missing-coordinate run. -/
theorem zero_coordinate_ignored (file : MultiFile) (inps : SeedInps)
    (draws clicks : List (Nat × Nat)) :
    mainSeed file { inps with ref_y := some 0 } draws clicks
      = mainSeed file { inps with ref_y := none } draws clicks ∧
    mainSeed file { inps with ref_x := some 0 } draws clicks
      = mainSeed file { inps with ref_x := none } draws clicks := by
  cases inps with
  | mk ry rx mf cf mc mth mrk =>
    constructor
    · show mainSeed file (SeedInps.mk (some 0) rx mf cf mc mth mrk) draws clicks
         = mainSeed file (SeedInps.mk none rx mf cf mc mth mrk) draws clicks
      unfold mainSeed
      rw [main_resolve_cleared (file.length : Int) (file.width : Int)
            (SeedInps.mk (some 0) rx mf cf mc mth mrk) rfl,
          main_resolve_cleared (file.length : Int) (file.width : Int)
            (SeedInps.mk none rx mf cf mc mth mrk) rfl]
      cases cf with
      | some coh =>
        exact seed_file_inps_zero_y file draws clicks rx mf (some coh) mc "max-coherence" mrk
      | none =>
        exact seed_file_inps_zero_y file draws clicks rx mf none mc mth mrk
    · show mainSeed file (SeedInps.mk ry (some 0) mf cf mc mth mrk) draws clicks
         = mainSeed file (SeedInps.mk ry none mf cf mc mth mrk) draws clicks
      unfold mainSeed
      rw [main_resolve_cleared_x (file.length : Int) (file.width : Int)
            (SeedInps.mk ry (some 0) mf cf mc mth mrk) rfl,
          main_resolve_cleared_x (file.length : Int) (file.width : Int)
            (SeedInps.mk ry none mf cf mc mth mrk) rfl]
      rw [set_method_falsy_x (SeedInps.mk ry (some 0) mf cf mc mth mrk) rfl,
          set_method_falsy_x (SeedInps.mk ry none mf cf mc mth mrk) rfl]
      cases cf with
      | some coh =>
        exact seed_file_inps_zero_x file draws clicks ry mf (some coh) mc "max-coherence" mrk
      | none =>
        exact seed_file_inps_zero_x file draws clicks ry mf none mc mth mrk

/-- C7 (amended): commit and fall-through policy for a caller-supplied
explicit coordinate.  (a) With `0 < y < length`, `0 < x < width`, a mask file
(when supplied) nonzero at `(y, x)`, and the ValidityMask true at `(y, x)`,
the pipeline commits exactly the explicit pixel.  (b) Under the same bounds
but with the ValidityMask false at `(y, x)` (and a nonempty ValidityMask),
the run fails with `ValueError` instead of falling through to the next
strategy.  (c) Coordinates outside the inclusive bounds of the source are
cleared, and the pipeline behaves exactly as if no coordinate had been
supplied. -/
theorem explicit_coordinate_policy (file : MultiFile) (inps : SeedInps)
    (draws clicks : List (Nat × Nat)) (y x : Nat)
    (hy : inps.ref_y = some ((y : Nat) : Int)) (hx : inps.ref_x = some ((x : Nat) : Int)) :
    (0 < y → y < file.length → 0 < x → x < file.width →
     (∀ m ∈ inps.mask_file, ∃ p, npGetQ m ((y : Nat) : Int) ((x : Nat) : Int) = some p ∧
        (p == some 0) = false) →
     maskAt (validity_mask file inps.mask_file) y x = true →
     mainSeed file inps draws clicks =
       some (if inps.mark_attribute then
          Except.ok (.marked (add_attribute file
            [("ref_x", toString ((x : Nat) : Int)), ("ref_y", toString ((y : Nat) : Int))]))
        else (seed_file_reference_value file
            (spatial_average file (validity_mask file inps.mask_file)
              ((x : Int), (y : Int), (x : Int) + 1, (y : Int) + 1))
            (toString ((y : Nat) : Int)) (toString ((x : Nat) : Int))).map .newFile)) ∧
    (0 < y → y < file.length → 0 < x → x < file.width →
     (∀ m ∈ inps.mask_file, ∃ p, npGetQ m ((y : Nat) : Int) ((x : Nat) : Int) = some p ∧
        (p == some 0) = false) →
     maskAt (validity_mask file inps.mask_file) y x = false →
     countTrue (validity_mask file inps.mask_file) ≠ 0 →
     mainSeed file inps draws clicks = some (Except.error (.valueError noRefMsg))) ∧
    (0 < y → 0 < x → ¬(y ≤ file.length ∧ x ≤ file.width) →
     mainSeed file inps draws clicks
       = mainSeed file { inps with ref_y := none, ref_x := none } draws clicks) := by
  cases inps with
  | mk ry rx mf cf mc mth mrk =>
    dsimp only [] at hy hx
    subst hy
    subst hx
    refine ⟨?_, ?_, ?_⟩
    · intro h0y hyl h0x hxw hmf hmk
      have hcy0 : ((y : Nat) : Int) ≠ 0 := by exact_mod_cast h0y.ne'
      have hcx0 : ((x : Nat) : Int) ≠ 0 := by exact_mod_cast h0x.ne'
      have hres := main_resolve_commit (file.length : Int) (file.width : Int)
          (SeedInps.mk (some ((y : Nat) : Int)) (some ((x : Nat) : Int)) mf cf mc mth mrk)
          ((y : Nat) : Int) ((x : Nat) : Int) rfl rfl hcy0 hcx0
          ⟨Int.natCast_nonneg y, by exact_mod_cast hyl.le, Int.natCast_nonneg x,
            by exact_mod_cast hxw.le⟩ hmf
      unfold mainSeed
      rw [hres]
      show seed_file_inps file
          (SeedInps.mk (some ((y : Nat) : Int)) (some ((x : Nat) : Int)) mf cf mc
            "input-coord" mrk) draws clicks = _
      rw [seed_file_inps_skip file
          (SeedInps.mk (some ((y : Nat) : Int)) (some ((x : Nat) : Int)) mf cf mc
            "input-coord" mrk) draws clicks (countTrue_ne_zero _ y x hmk)
          (show ¬(("input-coord" : String) = "global-average") by decide)
          (truthyI_some _ hcy0) (truthyI_some _ hcx0)]
      show some (step22 file (validity_mask file mf)
          (SeedInps.mk (some ((y : Nat) : Int)) (some ((x : Nat) : Int)) mf cf mc
            "input-coord" mrk)) = _
      have hyl' : y < (validity_mask file mf).length := by
        rw [validity_mask_length]
        exact hyl
      have hxl' : x < ((validity_mask file mf).getD y []).length := by
        rw [validity_mask_row file mf y hyl]
        exact hxw
      rw [step22_eval file (validity_mask file mf)
          (SeedInps.mk (some ((y : Nat) : Int)) (some ((x : Nat) : Int)) mf cf mc
            "input-coord" mrk) y x rfl rfl h0y.ne' h0x.ne' hyl' hxl']
      have hmk' : maskAt (validity_mask file mf) y x = true := hmk
      rw [if_pos hmk']
    · intro h0y hyl h0x hxw hmf hmkF hcnt
      have hcy0 : ((y : Nat) : Int) ≠ 0 := by exact_mod_cast h0y.ne'
      have hcx0 : ((x : Nat) : Int) ≠ 0 := by exact_mod_cast h0x.ne'
      have hres := main_resolve_commit (file.length : Int) (file.width : Int)
          (SeedInps.mk (some ((y : Nat) : Int)) (some ((x : Nat) : Int)) mf cf mc mth mrk)
          ((y : Nat) : Int) ((x : Nat) : Int) rfl rfl hcy0 hcx0
          ⟨Int.natCast_nonneg y, by exact_mod_cast hyl.le, Int.natCast_nonneg x,
            by exact_mod_cast hxw.le⟩ hmf
      unfold mainSeed
      rw [hres]
      show seed_file_inps file
          (SeedInps.mk (some ((y : Nat) : Int)) (some ((x : Nat) : Int)) mf cf mc
            "input-coord" mrk) draws clicks = _
      rw [seed_file_inps_skip file
          (SeedInps.mk (some ((y : Nat) : Int)) (some ((x : Nat) : Int)) mf cf mc
            "input-coord" mrk) draws clicks hcnt
          (show ¬(("input-coord" : String) = "global-average") by decide)
          (truthyI_some _ hcy0) (truthyI_some _ hcx0)]
      show some (step22 file (validity_mask file mf)
          (SeedInps.mk (some ((y : Nat) : Int)) (some ((x : Nat) : Int)) mf cf mc
            "input-coord" mrk)) = _
      have hyl' : y < (validity_mask file mf).length := by
        rw [validity_mask_length]
        exact hyl
      have hxl' : x < ((validity_mask file mf).getD y []).length := by
        rw [validity_mask_row file mf y hyl]
        exact hxw
      rw [step22_eval file (validity_mask file mf)
          (SeedInps.mk (some ((y : Nat) : Int)) (some ((x : Nat) : Int)) mf cf mc
            "input-coord" mrk) y x rfl rfl h0y.ne' h0x.ne' hyl' hxl']
      have hmkF' : maskAt (validity_mask file mf) y x = false := hmkF
      rw [if_neg (by simp [hmkF'])]
    · intro h0y h0x hout
      have hcy0 : ((y : Nat) : Int) ≠ 0 := by exact_mod_cast h0y.ne'
      have hcx0 : ((x : Nat) : Int) ≠ 0 := by exact_mod_cast h0x.ne'
      have hout' : ¬(0 ≤ ((y : Nat) : Int) ∧ ((y : Nat) : Int) ≤ (file.length : Int) ∧
          0 ≤ ((x : Nat) : Int) ∧ ((x : Nat) : Int) ≤ (file.width : Int)) := by
        intro hc
        exact hout ⟨by exact_mod_cast hc.2.1, by exact_mod_cast hc.2.2.2⟩
      unfold mainSeed
      rw [main_resolve_clear (file.length : Int) (file.width : Int)
          (SeedInps.mk (some ((y : Nat) : Int)) (some ((x : Nat) : Int)) mf cf mc mth mrk)
          ((y : Nat) : Int) ((x : Nat) : Int) rfl rfl hcy0 hcx0 hout']

/-- C7 witness: on the 3-by-3 demo stack the explicit in-bounds valid pixel
`(1, 1)` is committed in value mode. -/
theorem explicit_coordinate_policy_witness :
    mainSeed demoFile ⟨some ((1 : Nat) : Int), some ((1 : Nat) : Int), none, none, 85 / 100,
        "random", false⟩ [] []
      = some ((seed_file_reference_value demoFile
          (spatial_average demoFile (validity_mask demoFile none)
            (((1 : Nat) : Int), ((1 : Nat) : Int), ((1 : Nat) : Int) + 1, ((1 : Nat) : Int) + 1))
          (toString ((1 : Nat) : Int)) (toString ((1 : Nat) : Int))).map SeedOut.newFile) :=
  (((explicit_coordinate_policy demoFile
      ⟨some ((1 : Nat) : Int), some ((1 : Nat) : Int), none, none, 85 / 100, "random", false⟩
      [] [] 1 1 rfl rfl).1 (by decide) (by decide) (by decide) (by decide)
      (by intro m hm; simp at hm) (by decide))).trans rfl

/-- C7 counterexample: with explicit in-bounds coordinate `(1, 1)` whose
ValidityMask entry is false, the run raises `ValueError` even though the
random strategy had a viable pixel `(2, 2)` available: the resolver does not
fall through to the next strategy as the original claim states. -/
theorem explicit_coordinate_no_fallthrough_cex :
    maskAt (validity_mask demoFile3 none) 1 1 = false ∧
    maskAt (validity_mask demoFile3 none) 2 2 = true ∧
    mainSeed demoFile3 ⟨some ((1 : Nat) : Int), some ((1 : Nat) : Int), none, none, 85 / 100,
        "random", false⟩ [(2, 2)] []
      = some (Except.error (.valueError noRefMsg)) :=
  ⟨by decide, by decide, rfl⟩

/-- C8 (amended): when the explicit coordinate fails the source's inclusive
vetting bounds `0 <= y <= length and 0 <= x <= width` and a coherence raster
is supplied, the resolver selects via the coherence-threshold strategy, not
uniform random: any selected pixel lies in the ValidityMask and has coherence
at least the threshold, and the pipeline commits exactly the selected pixel.
(Coordinates on the inclusive boundary `y = length` or `x = width` are
outside the raster but pass the vetting and instead raise `IndexError` at
the mask read; see the counterexample.) -/
theorem coherence_fallback (file : MultiFile) (inps : SeedInps)
    (draws clicks : List (Nat × Nat)) (coh : Raster) (y x : Int) (cy cx : Nat)
    (hy : inps.ref_y = some y) (hx : inps.ref_x = some x)
    (hy0 : y ≠ 0) (hx0 : x ≠ 0)
    (hout : ¬(0 ≤ y ∧ y ≤ (file.length : Int) ∧ 0 ≤ x ∧ x ≤ (file.width : Int)))
    (hcoh : inps.coherence_file = some coh)
    (hmc : 0 < inps.min_coherence)
    (hsel : select_max_coherence_yx coh (validity_mask file inps.mask_file)
        inps.min_coherence draws = some (cy, cx))
    (hcy0 : cy ≠ 0) (hcx0 : cx ≠ 0) :
    (maskAt (validity_mask file inps.mask_file) cy cx = true ∧
     ∃ v, getPix coh cy cx = some v ∧ inps.min_coherence ≤ v) ∧
    mainSeed file inps draws clicks =
      some (if inps.mark_attribute then
          Except.ok (.marked (add_attribute file
            [("ref_x", toString ((cx : Nat) : Int)), ("ref_y", toString ((cy : Nat) : Int))]))
        else (seed_file_reference_value file
            (spatial_average file (validity_mask file inps.mask_file)
              ((cx : Int), (cy : Int), (cx : Int) + 1, (cy : Int) + 1))
            (toString ((cy : Nat) : Int)) (toString ((cx : Nat) : Int))).map .newFile) := by
  have hA := select_max_coherence_ok coh (validity_mask file inps.mask_file)
      inps.min_coherence draws cy cx hmc hsel
  refine ⟨hA, ?_⟩
  cases inps with
  | mk ry rx mf cf mc mth mrk =>
    dsimp only [] at hy hx hcoh hA
    subst hy
    subst hx
    subst hcoh
    dsimp only [] at hsel
    have hA' : maskAt (validity_mask file mf) cy cx = true := hA.1
    unfold mainSeed
    rw [main_resolve_clear_ok (file.length : Int) (file.width : Int)
        (SeedInps.mk (some y) (some x) mf (some coh) mc mth mrk) y x rfl rfl hy0 hx0 hout]
    show seed_file_inps file
        (SeedInps.mk none none mf (some coh) mc "max-coherence" mrk) draws clicks = _
    unfold seed_file_inps
    dsimp only []
    rw [if_neg (countTrue_ne_zero (validity_mask file mf) cy cx hA')]
    rw [if_neg (show ¬(("max-coherence" : String) = "global-average") by decide)]
    unfold step21
    dsimp only []
    rw [show truthyI (none : Option Int) = false from rfl]
    simp only [Bool.not_false, Bool.true_or]
    rw [if_pos trivial]
    rw [hsel]
    dsimp only []
    have hyl' : cy < (validity_mask file mf).length := (maskAt_lt _ _ _ hA').1
    have hxl' : cx < ((validity_mask file mf).getD cy []).length := (maskAt_lt _ _ _ hA').2
    rw [step22_eval file (validity_mask file mf)
        (SeedInps.mk (some ((cy : Nat) : Int)) (some ((cx : Nat) : Int)) mf (some coh) mc
          "max-coherence" mrk) cy cx rfl rfl hcy0 hcx0 hyl' hxl']
    rw [if_pos hA']

/-- C8 witness: on the 3-by-3 demo stack with the integer demo coherence
raster, the out-of-bounds explicit coordinate `(5, 1)` falls through to the
coherence strategy, which commits pixel `(1, 1)` (coherence `5 ≥ 1`). -/
theorem coherence_fallback_witness :
    mainSeed demoFile ⟨some 5, some 1, none, some demoCoh, 1, "random", false⟩ [(1, 1)] []
      = some ((seed_file_reference_value demoFile
          (spatial_average demoFile (validity_mask demoFile none)
            (((1 : Nat) : Int), ((1 : Nat) : Int), ((1 : Nat) : Int) + 1, ((1 : Nat) : Int) + 1))
          (toString ((1 : Nat) : Int)) (toString ((1 : Nat) : Int))).map SeedOut.newFile) :=
  ((coherence_fallback demoFile
      ⟨some 5, some 1, none, some demoCoh, 1, "random", false⟩ [(1, 1)] [] demoCoh 5 1 1 1
      rfl rfl (by decide) (by decide) (by decide) rfl one_pos rfl
      (by decide) (by decide)).2).trans rfl

/-- C8 counterexample: the explicit coordinate `(3, 1)` lies outside the
3-by-3 raster (`y = length`), a coherence raster is supplied, and the
coherence strategy has an acceptable pixel `(1, 1)` available; yet the
coordinate passes the source's inclusive vetting `0 <= y <= length`, is
committed as `input-coord`, and the mask read raises an uncaught
`IndexError` — the coherence raster is never consulted, refuting the
original claim for boundary coordinates. -/
theorem coherence_boundary_cex :
    demoFile.length = 3 ∧
    select_max_coherence_yx demoCoh (validity_mask demoFile none) 1 [(1, 1)]
      = some (1, 1) ∧
    mainSeed demoFile ⟨some 3, some 1, none, some demoCoh, 1, "random", false⟩ [(1, 1)] []
      = some (Except.error .indexError) :=
  ⟨rfl, rfl, rfl⟩

end PySAR
